import Mathlib

/-!
# xstudio timeline: the StackActor

A shallow embedding of `src/timeline/src/stack_actor.cpp` and of the pipeline lookup of
`src/colour_pipeline/src/colour_pipeline_actor.cpp`.  The actor's state is an
explicit record, every message handler is a function from the state (and from the
replies the handler waits for) to the new state and the reply it delivers.

Classes the handlers use whose code is not part of the sources (`Item`, `Stack`,
`JsonStore`, `Uuid`, the CAF fan-out policy) are modelled from the specification or
taken as parameters (`ItemApi`); every such definition says so.
-/

set_option autoImplicit false

namespace xstudio

/-! ## Identities and actor handles -/

/-- Modelled from the spec: `utility::Uuid` is not part of the sources.  An identity is
represented by its string form (the form stored in documents); the null identity
`utility::Uuid()` is the empty string. -/
abbrev Uuid := String

/-- The null identity `utility::Uuid()`. -/
def Uuid.null : Uuid := ""

/-- Test `Uuid::is_null()`. -/
def Uuid.is_null (u : Uuid) : Bool := u == Uuid.null

/-- Lexicographic comparison of two character sequences by code point. -/
def lexLt : List Char → List Char → Bool
  | [], [] => false
  | [], _ :: _ => true
  | _ :: _, [] => false
  | a :: as, b :: bs =>
    if a.toNat < b.toNat then true
    else if a.toNat = b.toNat then lexLt as bs
    else false

/-- Key order of `std::map<std::string, _>` and of `std::map<Uuid, _>`. -/
def Uuid.lt (a b : String) : Bool := lexLt a.data b.data

/-- A `caf::actor` handle (also used for `caf::actor_addr`); `0` is the invalid handle
`caf::actor()`. -/
abbrev Actor := Nat

/-- The pair `utility::UuidActor`. -/
structure UuidActor where
  uuid : Uuid
  actor : Actor

/-- A `caf::error` made by `make_error(xstudio_error::error, msg)`, or an error a child
replied with: represented by its message. -/
abbrev error := String

/-! ## JSON documents (`utility::JsonStore`) -/

/-- Modelled from the spec: `utility::JsonStore` is not part of the sources; it is a
self-describing structured document (JSON).  Objects keep their members ordered by key. -/
inductive Json where
  | null
  | bool (b : Bool)
  | num (n : Int)
  | str (s : String)
  | arr (xs : List Json)
  | obj (kvs : List (String × Json))

abbrev JsonStore := Json

/-- Test `is_null()`. -/
def Json.is_null : Json → Bool
  | .null => true
  | _ => false

/-- First member stored under key `k`. -/
def Json.lookup (k : String) : List (String × Json) → Option Json
  | [] => none
  | (k', v) :: rest => if k' = k then some v else Json.lookup k rest

/-- Read access `j[k]` on a const document: `none` when `j` is no object or has no
member `k` (the source would throw or assert). -/
def Json.get (j : Json) (k : String) : Option Json :=
  match j with
  | .obj kvs => Json.lookup k kvs
  | _ => none

/-- Insertion of a member into the key-ordered member list of an object; an existing
member with the same key is overwritten. -/
def Json.insert_member (k : String) (v : Json) : List (String × Json) → List (String × Json)
  | [] => [(k, v)]
  | (k', v') :: rest =>
    if Uuid.lt k k' then (k, v) :: (k', v') :: rest
    else if k = k' then (k, v) :: rest
    else (k', v') :: Json.insert_member k v rest

/-- Write access `j[k] = v`: a null document becomes an object; `none` when `j` is
neither null nor an object (the source would throw). -/
def Json.set (j : Json) (k : String) (v : Json) : Option Json :=
  match j with
  | .null => some (.obj [(k, v)])
  | .obj kvs => some (.obj (Json.insert_member k v kvs))
  | _ => none

/-- The values visited by `for (const auto &[key, value] : j.items())`: nothing for
null, the members of an object in key order, the elements of an array, and the value
itself for a primitive. -/
def Json.items : Json → List Json
  | .null => []
  | .obj kvs => kvs.map Prod.snd
  | .arr xs => xs
  | j => [j]

/-- A string value read from a document, `none` when the value is no string. -/
def Json.as_string : Json → Option String
  | .str s => some s
  | _ => none

/-- Path access `j[a][b][c]`, `none` when a member on the path is missing. -/
def Json.at3 (j : Json) (a b c : String) : Option Json :=
  match j.get a with
  | none => none
  | some ja =>
    match ja.get b with
    | none => none
    | some jb => jb.get c

/-- Path access `j[a][b][c]` followed by conversion to a string. -/
def Json.string_at (j : Json) (a b c : String) : Option String :=
  match j.at3 a b c with
  | none => none
  | some jc => jc.as_string

/-- Member count `size()` of a document: 0 for null, the number of members of an
object or of elements of an array, 1 for a primitive. -/
def Json.size : Json → Nat
  | .null => 0
  | .obj kvs => kvs.length
  | .arr xs => xs.length
  | _ => 1

/-- Array update `jsn.insert(jsn.begin(), more.begin(), more.end())` on change records:
the records of `more` are placed in front of those of `jsn`. -/
def insert_begin (jsn more : List Json) : List Json := more ++ jsn

/-! ## Items -/

/-- Modelled from the spec: the kind of an Item, one of Stack, Track, Clip, Gap
(`item.hpp` is not part of the sources). -/
inductive ItemType where
  | IT_STACK
  | IT_TRACK
  | IT_CLIP
  | IT_GAP
deriving DecidableEq, Repr

/-- Modelled from the spec: a numeric frame interval (`utility::FrameRange` is not part
of the sources). -/
structure FrameRange where
  start : Int
  duration : Int
deriving DecidableEq, Repr

/-- Modelled from the spec: the data record `Item` of section 3 (its class is not part
of the sources): identity, kind, actor reference used for routing, enabled flag, the
two ranges and the ordered children. -/
inductive Item where
  | mk (uuid : Uuid) (item_type : ItemType) (actor : Actor) (enabled : Bool)
      (active_range : FrameRange) (available_range : FrameRange) (children : List Item)

/-- Accessor `Item::uuid()`. -/
def Item.uuid : Item → Uuid
  | .mk u _ _ _ _ _ _ => u

/-- Accessor `Item::item_type()`. -/
def Item.item_type : Item → ItemType
  | .mk _ t _ _ _ _ _ => t

/-- Accessor `Item::actor()`. -/
def Item.actor : Item → Actor
  | .mk _ _ a _ _ _ _ => a

/-- Accessor `Item::children()`. -/
def Item.children : Item → List Item
  | .mk _ _ _ _ _ _ cs => cs

/-- Accessor `Item::size()`: the number of children. -/
def Item.size (it : Item) : Nat := it.children.length

/-- The same Item with another children sequence. -/
def Item.with_children : Item → List Item → Item
  | .mk u t a e ar av _, cs => .mk u t a e ar av cs

/-- Setter `Item::set_actor_addr`. -/
def Item.set_actor_addr : Item → Actor → Item
  | .mk u t _ e ar av cs, a => .mk u t a e ar av cs

/-- The same Item with other ranges. -/
def Item.with_ranges : Item → FrameRange → FrameRange → Item
  | .mk u t a e _ _ cs, ar, av => .mk u t a e ar av cs

/-- Position of the first Item with identity `uuid`, counted from the front; the
length of the sequence (the position of `end()`) when there is none.  This is
`find_uuid(items, uuid)` with iterators read as positions. -/
def find_uuid : List Item → Uuid → Nat
  | [], _ => 0
  | c :: cs, uuid => if c.uuid = uuid then 0 else find_uuid cs uuid + 1

/-- Iterator arithmetic `std::advance(it, k)` on a sequence of `n` elements, with
iterators read as positions `0 .. n` (`n` is `end()`): `none` when the result would
leave the sequence, which is undefined behaviour in the source. -/
def advance (n : Nat) (pos : Nat) (k : Int) : Option Nat :=
  if 0 ≤ (pos : Int) + k ∧ (pos : Int) + k ≤ n then some ((pos : Int) + k).toNat else none

/-- Modelled from the spec: the sequence effect of `Item::insert(position, val)`, the
new child is placed in front of `position`. -/
def Item.insert (it : Item) (position : Nat) (val : Item) : Item :=
  it.with_children (it.children.take position ++ val :: it.children.drop position)

/-- Modelled from the spec: the sequence effect of `Item::erase(position)`. -/
def Item.erase (it : Item) (position : Nat) : Item :=
  it.with_children (it.children.eraseIdx position)

/-- Modelled from the spec: the sequence effect of `Item::splice(pos, children, first,
last)`, which is that of `std::list::splice`: the run `[first, last)` is moved in front
of `pos`.  `none` when `pos` lies inside the run or the run is not a range of the
sequence (undefined behaviour in the source). -/
def Item.splice (it : Item) (pos first last : Nat) : Option Item :=
  let cs := it.children
  if first ≤ last ∧ last ≤ cs.length ∧ pos ≤ cs.length then
    let run := (cs.take last).drop first
    if first = last then some it
    else if pos < first then
      some (it.with_children
        (cs.take pos ++ run ++ (cs.take first).drop pos ++ cs.drop last))
    else if last ≤ pos then
      some (it.with_children
        (cs.take first ++ (cs.take pos).drop last ++ run ++ cs.drop pos))
    else none
  else none

/-- Modelled from the spec: the container record `Stack` held in `base_` (its class is
not part of the sources): a name, the container identity and the local Item. -/
structure Stack where
  name : String
  uuid : Uuid
  item : Item

/-- The member functions of `Item` and `Stack` whose code is not part of the sources
and whose result the handlers only pass on.  They are parameters of the model. -/
structure ItemApi where
  /-- Type-compatibility rule `parent.valid_child(child)`. -/
  valid_child : Item → Item → Bool
  /-- Change records returned by `Item::insert(position, val)`. -/
  insert_changes : Item → Nat → Item → List Json
  /-- Change records returned by `Item::erase(position)`. -/
  erase_changes : Item → Nat → List Json
  /-- Change records returned by `Item::splice(pos, _, first, last)`. -/
  splice_changes : Item → Nat → Nat → Nat → List Json
  /-- Recomputation `Item::refresh()`: `none` when nothing changed (a null document),
  else the recomputed active and available range and the secondary change records. -/
  refresh : Item → Option (FrameRange × FrameRange × List Json)
  /-- Effect of `Item::undo(hist)` on the local Item. -/
  undo : Item → Json → Item
  /-- Effect of `Item::redo(hist)` on the local Item. -/
  redo : Item → Json → Item
  /-- Document written by `Stack::serialise()`. -/
  serialise : Stack → Json
  /-- Record built by the constructor `Stack(const JsonStore &)`. -/
  parse : Json → Stack
  /-- Item a child actor of the given container type, spawned from the given document
  at the given handle, hands back through its `pitem` argument. -/
  pitem : String → Json → Actor → Item

/-- Modelled from the spec: `Item::refresh()` applied to the local Item, giving the
refreshed Item and the secondary changes (`none` is the null document).  The children
are not touched. -/
def Item.refresh (api : ItemApi) (it : Item) : Item × Option (List Json) :=
  match api.refresh it with
  | none => (it, none)
  | some (ar, av, more) => (it.with_ranges ar av, some more)

/-! ## The actor state -/

/-- State of a `StackActor`: the members `base_` and `actors_`, and what the actor has
done to the actor system so far (monitors held, events sent to `event_group_`, exit
messages sent, child actors spawned). -/
structure StackActor where
  /-- The handle `this`. -/
  self : Actor
  /-- Member `base_`. -/
  base_ : Stack
  /-- Member `actors_`, a `std::map<Uuid, caf::actor>`: the entries in key order. -/
  actors_ : List (Uuid × Actor)
  /-- Actors monitored through `monitor(..)` and not released by `demonitor(..)`. -/
  monitored : List Actor
  /-- Events sent to `event_group_`, oldest first: the document and the hidden flag. -/
  published : List (JsonStore × Bool)
  /-- Exit messages sent with `send_exit(.., user_shutdown)`, oldest first. -/
  exits : List Actor
  /-- Number of child actors spawned so far; the next spawn returns handle
  `self + spawned + 1`. -/
  spawned : Nat

/-- Lookup `m.count(k)` on a `std::map`. -/
def map_count (m : List (Uuid × Actor)) (k : Uuid) : Nat :=
  if (m.find? (fun p => p.1 == k)).isSome then 1 else 0

/-- Assignment `m[k] = v` on a `std::map`: insertion in key order, an existing entry
for `k` is overwritten. -/
def map_assign (k : Uuid) (v : Actor) : List (Uuid × Actor) → List (Uuid × Actor)
  | [] => [(k, v)]
  | (k', v') :: rest =>
    if Uuid.lt k k' then (k, v) :: (k', v') :: rest
    else if k = k' then (k, v) :: rest
    else (k', v') :: map_assign k v rest

/-- Removal `m.erase(k)` on a `std::map`. -/
def map_erase (k : Uuid) (m : List (Uuid × Actor)) : List (Uuid × Actor) :=
  m.filter (fun p => !(p.1 == k))

/-- Helper `map_value_to_vec(m)`: the mapped actors in key order. -/
def map_value_to_vec (m : List (Uuid × Actor)) : List Actor := m.map Prod.snd

/-- The children of the local Item, `base_.item().children()`. -/
def StackActor.children (s : StackActor) : List Item := s.base_.item.children

/-- The state with another local Item. -/
def StackActor.with_item (s : StackActor) (it : Item) : StackActor :=
  { s with base_ := { s.base_ with item := it } }

/-- Effect of `send(event_group_, event_atom_v, item_atom_v, jsn, hidden)`. -/
def StackActor.send_event (s : StackActor) (jsn : JsonStore) (hidden : Bool) : StackActor :=
  { s with published := s.published ++ [(jsn, hidden)] }

/-- Effect of `send_exit(a, caf::exit_reason::user_shutdown)`. -/
def StackActor.send_exit (s : StackActor) (a : Actor) : StackActor :=
  { s with exits := s.exits ++ [a] }

/-- Effect of `demonitor(a)`. -/
def StackActor.demonitor (s : StackActor) (a : Actor) : StackActor :=
  { s with monitored := s.monitored.erase a }

/-- Method `StackActor::add_item`: the join of the child's event group happens in the
child's broadcast actor and its failure is only logged; the state effect is
`monitor(ua.actor())` and `actors_[ua.uuid()] = ua.actor()`. -/
def StackActor.add_item (s : StackActor) (ua : UuidActor) : StackActor :=
  { s with monitored := s.monitored ++ [ua.actor],
           actors_ := map_assign ua.uuid ua.actor s.actors_ }

/-- The results of all destinations in request order, or the first error. -/
def fan_out_collect {α : Type} (dests : List Actor) (reply : Actor → Except error α) :
    Except error (List α) :=
  match dests with
  | [] => .ok []
  | d :: ds =>
    match reply d with
    | .error e => .error e
    | .ok a =>
      match fan_out_collect ds reply with
      | .error e => .error e
      | .ok as => .ok (a :: as)

/-- Modelled on CAF's `fan_out_request<policy::select_all>` (not part of the sources):
the request goes to every destination once, the continuation gets the results of all
of them, or the first error.  With no destination the request fails with
`sec::invalid_argument`. -/
def fan_out_request {α : Type} (dests : List Actor) (reply : Actor → Except error α) :
    Except error (List α) :=
  if dests.isEmpty then .error "invalid_argument" else fan_out_collect dests reply

/-- The steps shared by the handlers after a structural change of the local Item:
`more = base_.item().refresh()`, the secondary changes are placed in front of
`changes`, the result is sent to `event_group_` (not hidden) and returned. -/
def StackActor.refresh_and_send (api : ItemApi) (s : StackActor) (changed : Item)
    (changes : List Json) : StackActor × JsonStore :=
  let r := Item.refresh api changed
  let changes' :=
    match r.2 with
    | none => changes
    | some more => insert_begin changes more
  ((s.with_item r.1).send_event (.arr changes') false, .arr changes')

/-! ## Insert -/

/-- The loop of the insert-by-index handler,
`for (int i = 0; it != end(); i++, it++) if (i == index) break;`:
the position reached from position `pos` with counter `i` and `rest` still ahead. -/
def insert_position (index : Int) : Int → List Item → Nat → Nat
  | _, [], pos => pos
  | i, _ :: rest, pos => if i = index then pos else insert_position index (i + 1) rest (pos + 1)

/-- Handler `(insert_item_atom, const int index, const UuidActor &ua, const Item &item)`.
`reacquired` is the answer of `ua.actor()` to the `item_atom` request the handler
awaits (no other message is handled in between). -/
def StackActor.insert_item_atom_index (api : ItemApi) (s : StackActor) (index : Int)
    (ua : UuidActor) (item : Item) (reacquired : Except error Item) :
    StackActor × Except error JsonStore :=
  if !api.valid_child s.base_.item item then
    (s, .error "Invalid child type")
  else
    let s1 := s.add_item ua
    match reacquired with
    | .error err => (s1, .error err)
    | .ok item' =>
      let it := insert_position index 0 s1.children 0
      let changes := api.insert_changes s1.base_.item it item'
      let r := s1.refresh_and_send api (s1.base_.item.insert it item') changes
      (r.1, .ok r.2)

/-- Handler `(insert_item_atom, const Uuid &before_uuid, const UuidActor &ua,
const Item &item)`. -/
def StackActor.insert_item_atom_uuid (api : ItemApi) (s : StackActor) (before_uuid : Uuid)
    (ua : UuidActor) (item : Item) (reacquired : Except error Item) :
    StackActor × Except error JsonStore :=
  if !api.valid_child s.base_.item item then
    (s, .error "Invalid child type")
  else
    let s1 := s.add_item ua
    match reacquired with
    | .error err => (s1, .error err)
    | .ok item' =>
      if before_uuid.is_null then
        let it := s1.children.length
        let changes := api.insert_changes s1.base_.item it item'
        let r := s1.refresh_and_send api (s1.base_.item.insert it item') changes
        (r.1, .ok r.2)
      else
        let it := find_uuid s1.children before_uuid
        if it = s1.children.length then
          (s1, .error "Invalid uuid")
        else
          let changes := api.insert_changes s1.base_.item it item'
          let r := s1.refresh_and_send api (s1.base_.item.insert it item') changes
          (r.1, .ok r.2)

/-! ## Move -/

/-- Handler `(move_item_atom, const Uuid &src_uuid, const int count,
const Uuid &before_uuid)`.  `none` stands for undefined behaviour of the source (an
iterator moved out of the children, or a splice into its own run). -/
def StackActor.move_item_atom_uuid (api : ItemApi) (s : StackActor) (src_uuid : Uuid)
    (count : Int) (before_uuid : Uuid) : Option (StackActor × Except error JsonStore) :=
  let n := s.children.length
  let sitb := find_uuid s.children src_uuid
  if sitb = n then
    some (s, .error "Invalid src uuid")
  else
    let dit0 : Option Nat :=
      if !before_uuid.is_null then advance n (find_uuid s.children before_uuid) 1
      else some n
    match dit0 with
    | none => none
    | some dit =>
      if !before_uuid.is_null && dit == n then
        some (s, .error "Invalid dst uuid")
      else if count ≠ 0 then
        match advance n sitb count with
        | none => none
        | some site =>
          match s.base_.item.splice dit sitb site with
          | none => none
          | some changed =>
            let changes := api.splice_changes s.base_.item dit sitb site
            let r := s.refresh_and_send api changed changes
            some (r.1, .ok r.2)
      else
        some (s, .ok .null)

/-- Handler `(move_item_atom, const int src_index, const int count,
const int dst_index)`, which resolves both positions to identities and delegates to the
handler above. -/
def StackActor.move_item_atom_index (api : ItemApi) (s : StackActor) (src_index : Int)
    (count : Int) (dst_index : Int) : Option (StackActor × Except error JsonStore) :=
  let n := s.children.length
  match advance n 0 src_index with
  | none => none
  | some sit =>
    match s.children[sit]? with
    | none => some (s, .error "Invalid src index")
    | some src =>
      match advance n 0 dst_index with
      | none => none
      | some dit =>
        let dst_uuid :=
          match s.children[dit]? with
          | none => Uuid.null
          | some dst => dst.uuid
        s.move_item_atom_uuid api src.uuid count dst_uuid

/-! ## Remove and erase -/

/-- Handler `(remove_item_atom, const Uuid &uuid)`. -/
def StackActor.remove_item_atom_uuid (api : ItemApi) (s : StackActor) (uuid : Uuid) :
    StackActor × Except error (JsonStore × Item) :=
  let it := find_uuid s.children uuid
  match s.children[it]? with
  | none => (s, .error "Invalid uuid")
  | some item =>
    let s1 := s.demonitor item.actor
    let s2 := { s1 with actors_ := map_erase item.uuid s1.actors_ }
    let changes := api.erase_changes s2.base_.item it
    let r := s2.refresh_and_send api (s2.base_.item.erase it) changes
    (r.1, .ok (r.2, item))

/-- Handler `(erase_item_atom, const Uuid &uuid)`: a `remove_item_atom` request to
itself, then the exit of the removed child's actor. -/
def StackActor.erase_item_atom_uuid (api : ItemApi) (s : StackActor) (uuid : Uuid) :
    StackActor × Except error JsonStore :=
  match s.remove_item_atom_uuid api uuid with
  | (s1, .ok hist_item) => (s1.send_exit hist_item.2.actor, .ok hist_item.1)
  | (s1, .error err) => (s1, .error err)

/-! ## Serialise -/

/-- The loop of the serialise handler,
`for (const auto &j : json) jsn["actors"][string(j["base"]["container"]["uuid"])] = j;`
run on the value of `jsn["actors"]`.  `none` when a reply has no string at that path
(the source would throw). -/
def store_actors : List Json → Json → Option Json
  | [], actors => some actors
  | j :: rest, actors =>
    match j.string_at "base" "container" "uuid" with
    | none => none
    | some key =>
      match actors.set key j with
      | none => none
      | some actors' => store_actors rest actors'

/-- The document the serialise handler assembles from the serialised base and the
children's replies: `jsn["base"] = base; jsn["actors"] = {};` and the loop above. -/
def serialise_document (base : Json) (json : List Json) : Option Json :=
  match store_actors json .null with
  | none => none
  | some actors =>
    match Json.null.set "base" base with
    | none => none
    | some jsn => jsn.set "actors" actors

/-- Handler `(utility::serialise_atom)`.  `reply` is the answer of each child actor to
the `serialise_atom` request; the results are taken in the order of the requests.  The
state is not changed.  `none` when assembling the document throws. -/
def StackActor.serialise_atom (api : ItemApi) (s : StackActor)
    (reply : Actor → Except error JsonStore) : Option (Except error JsonStore) :=
  if !s.actors_.isEmpty then
    match fan_out_request (map_value_to_vec s.actors_) reply with
    | .error err => some (.error err)
    | .ok json =>
      match serialise_document (api.serialise s.base_) json with
      | none => none
      | some jsn => some (.ok jsn)
  else
    match serialise_document (api.serialise s.base_) [] with
    | none => none
    | some jsn => some (.ok jsn)

/-! ## Reconstruction from a document -/

/-- How a piece of code that may throw or run into undefined behaviour ends. -/
inductive Step (α : Type) where
  /-- Normal completion. -/
  | done (a : α)
  /-- An exception was thrown (a member the code reads is missing from the document). -/
  | thrown
  /-- Undefined behaviour (the `end()` iterator was dereferenced). -/
  | undefined

/-- Method `StackActor::deserialise(value, replace_item)`.  The four branches of the
source differ only in the actor class they spawn; with any other container type no
actor is spawned and the invalid handle is returned. -/
def StackActor.deserialise (api : ItemApi) (s : StackActor) (value : JsonStore)
    (replace_item : Bool) : Step (StackActor × Actor) :=
  match value.string_at "base" "item" "uuid" with
  | none => .thrown
  | some key =>
    match value.at3 "base" "container" "type" with
    | none => .thrown
    | some type =>
      if type.as_string = some "Track" ∨ type.as_string = some "Clip" ∨
          type.as_string = some "Gap" ∨ type.as_string = some "Stack" then
        let actor := s.self + s.spawned + 1
        let item := api.pitem (type.as_string.getD "") value actor
        let s1 := ({ s with spawned := s.spawned + 1 }).add_item ⟨key, actor⟩
        if replace_item then
          let itemit := find_uuid s1.children key
          if itemit = s1.children.length then .undefined
          else .done (s1.with_item
            (s1.base_.item.with_children (s1.children.set itemit item)), actor)
        else .done (s1, actor)
      else .done (s, 0)

/-- The loop of the constructor,
`for (const auto &[key, value] : jsn["actors"].items()) try deserialise(value, true)`
with the exception caught and logged. -/
def StackActor.deserialise_all (api : ItemApi) : List Json → StackActor → Option StackActor
  | [], s => some s
  | value :: rest, s =>
    match s.deserialise api value true with
    | .done r => StackActor.deserialise_all api rest r.1
    | .thrown => StackActor.deserialise_all api rest s
    | .undefined => none

/-- Constructor `StackActor::StackActor(cfg, jsn, pitem)` run at handle `self`: the
state of the new actor and the Item written to `pitem`.  `none` when `jsn` has no
member "base" or "actors", or a child is deserialised into the `end()` position. -/
def StackActor.construct (api : ItemApi) (self : Actor) (jsn : JsonStore) :
    Option (StackActor × Item) :=
  match jsn.get "base", jsn.get "actors" with
  | some base, some actors =>
    let b := api.parse base
    let s0 : StackActor :=
      { self := self,
        base_ := { b with item := b.item.set_actor_addr self },
        actors_ := [], monitored := [], published := [], exits := [], spawned := 0 }
    match StackActor.deserialise_all api actors.items s0 with
    | none => none
    | some s => some (s, s.base_.item)
  | _, _ => none

/-! ## Fan-out handlers -/

/-- What a handler that fans a request out to the owned children does: the state it
leaves, the destinations of the request (each gets the same message once) and the
reply it delivers once the fan-out is resolved. -/
structure FanOut (α : Type) where
  state : StackActor
  requests : List Actor
  reply : Except error α

/-- The two continuations the fan-out handlers install:
`[=](std::vector<bool>) mutable { rp.deliver(true); }` and
`[=](error &err) mutable { rp.deliver(err); }`. -/
def deliver_true (res : Except error (List Bool)) : Except error Bool :=
  match res with
  | .ok _ => .ok true
  | .error err => .error err

/-- Handler `(history::undo_atom, const JsonStore &hist)`.  `reply` is the answer of
each child actor to the forwarded request. -/
def StackActor.undo_atom (api : ItemApi) (s : StackActor) (hist : JsonStore)
    (reply : Actor → Except error Bool) : FanOut Bool :=
  let s1 := s.with_item (api.undo s.base_.item hist)
  if s1.actors_.isEmpty then
    { state := s1, requests := [], reply := .ok true }
  else
    { state := s1, requests := map_value_to_vec s1.actors_,
      reply := deliver_true (fan_out_request (map_value_to_vec s1.actors_) reply) }

/-- Handler `(history::redo_atom, const JsonStore &hist)`. -/
def StackActor.redo_atom (api : ItemApi) (s : StackActor) (hist : JsonStore)
    (reply : Actor → Except error Bool) : FanOut Bool :=
  let s1 := s.with_item (api.redo s.base_.item hist)
  if s1.actors_.isEmpty then
    { state := s1, requests := [], reply := .ok true }
  else
    { state := s1, requests := map_value_to_vec s1.actors_,
      reply := deliver_true (fan_out_request (map_value_to_vec s1.actors_) reply) }

/-- Handler `(link_media_atom, const UuidActorMap &media)`.  `reply` is the answer of
each child actor to the forwarded request. -/
def StackActor.link_media_atom (s : StackActor) (_media : List (Uuid × Actor))
    (reply : Actor → Except error Bool) : FanOut Bool :=
  { state := s, requests := map_value_to_vec s.actors_,
    reply := deliver_true (fan_out_request (map_value_to_vec s.actors_) reply) }

/-! ## A concrete instance of the parameters

Used to run the handlers on concrete stacks. -/

/-- Container type name written for an Item kind. -/
def kind_name : ItemType → String
  | .IT_STACK => "Stack"
  | .IT_TRACK => "Track"
  | .IT_CLIP => "Clip"
  | .IT_GAP => "Gap"

/-- Item kind read from a container type name. -/
def kind_of_name (n : String) : ItemType :=
  if n = "Track" then .IT_TRACK
  else if n = "Clip" then .IT_CLIP
  else if n = "Gap" then .IT_GAP
  else .IT_STACK

/-- A childless enabled Item with empty ranges. -/
def leaf (uuid : Uuid) (kind : ItemType) (actor : Actor) : Item :=
  .mk uuid kind actor true ⟨0, 0⟩ ⟨0, 0⟩ []

/-- The record of one child inside a serialised Item. -/
def demo_child_doc (c : Item) : Json :=
  .obj [("type", .str (kind_name c.item_type)), ("uuid", .str c.uuid)]

/-- The child read back from its record (without actor reference). -/
def demo_child_parse (j : Json) : Item :=
  leaf (((j.get "uuid").bind Json.as_string).getD "")
    (kind_of_name (((j.get "type").bind Json.as_string).getD "")) 0

/-- A serialiser of the container record. -/
def demo_serialise (b : Stack) : Json :=
  .obj [("container", .obj [("name", .str b.name), ("type", .str "Stack"),
          ("uuid", .str b.uuid)]),
        ("item", .obj [("children", .arr (b.item.children.map demo_child_doc)),
          ("uuid", .str b.item.uuid)])]

/-- The matching parser of the container record. -/
def demo_parse (j : Json) : Stack :=
  { name := (((j.get "container").bind (fun c => c.get "name")).bind Json.as_string).getD "",
    uuid := (((j.get "container").bind (fun c => c.get "uuid")).bind Json.as_string).getD "",
    item := .mk ((((j.get "item").bind (fun c => c.get "uuid")).bind Json.as_string).getD "")
      .IT_STACK 0 true ⟨0, 0⟩ ⟨0, 0⟩
      ((((j.get "item").bind (fun c => c.get "children")).getD .null).items.map
        demo_child_parse) }

/-- A change record with an action tag, a position and an identity. -/
def demo_change (action : String) (index : Nat) (uuid : Uuid) : Json :=
  .obj [("action", .str action), ("index", .num index), ("uuid", .str uuid)]

/-- A concrete choice of the parameters: a Stack accepts Tracks and Stacks, nothing is
recomputed by refresh, history records leave the local Item alone. -/
def demo_api : ItemApi :=
  { valid_child := fun parent child =>
      decide (parent.item_type = .IT_STACK) &&
        (decide (child.item_type = .IT_TRACK) || decide (child.item_type = .IT_STACK)),
    insert_changes := fun _ pos val => [demo_change "insert" pos val.uuid],
    erase_changes := fun _ pos => [demo_change "remove" pos ""],
    splice_changes := fun _ pos first _ => [demo_change "splice" pos (toString first)],
    refresh := fun _ => none,
    undo := fun it _ => it,
    redo := fun it _ => it,
    serialise := demo_serialise,
    parse := demo_parse,
    pitem := fun type value actor =>
      leaf ((value.string_at "base" "item" "uuid").getD "") (kind_of_name type) actor }

/-- The document a childless child actor of the given kind and identity answers a
serialise request with. -/
def demo_doc (uuid : Uuid) (kind : ItemType) : Json :=
  .obj [("actors", .null),
        ("base", .obj [("container", .obj [("name", .str "child"),
                          ("type", .str (kind_name kind)), ("uuid", .str uuid)]),
                       ("item", .obj [("children", .arr []), ("uuid", .str uuid)])])]

/-- A stack actor at handle 1 with the given children and ownership map and nothing
done yet. -/
def demo_stack (children : List Item) (actors : List (Uuid × Actor)) : StackActor :=
  { self := 1,
    base_ := { name := "stack", uuid := "s", item := .mk "s" .IT_STACK 1 true ⟨0, 0⟩ ⟨0, 0⟩ children },
    actors_ := actors, monitored := actors.map Prod.snd, published := [], exits := [],
    spawned := 0 }

/-- Four tracks `a`, `b`, `c`, `d` owned through the actors 11, 12, 13, 14. -/
def demo_four : StackActor :=
  demo_stack [leaf "a" .IT_TRACK 11, leaf "b" .IT_TRACK 12, leaf "c" .IT_TRACK 13,
      leaf "d" .IT_TRACK 14]
    [("a", 11), ("b", 12), ("c", 13), ("d", 14)]

/-- The documents the children of the examples answer serialise with: the tracks `a`,
`b`, `c`, `d` behind the actors 11, 12, 13, 14. -/
def demo_docs (a : Actor) : Json :=
  if a = 11 then demo_doc "a" .IT_TRACK
  else if a = 12 then demo_doc "b" .IT_TRACK
  else if a = 13 then demo_doc "c" .IT_TRACK
  else demo_doc "d" .IT_TRACK

/-- One track `a` owned through actor 11. -/
def demo_one : StackActor :=
  demo_stack [leaf "a" .IT_TRACK 11] [("a", 11)]

/-- The state an empty stack is left in by the insert handler when track `a` (actor 11)
is to be inserted before the unknown identity `zz`. -/
def demo_unplaced : StackActor :=
  ((demo_stack [] []).insert_item_atom_uuid demo_api "zz" ⟨"a", 11⟩ (leaf "a" .IT_TRACK 11)
    (.ok (leaf "a" .IT_TRACK 11))).1

/-- The identities of the children, in order. -/
def StackActor.child_uuids (s : StackActor) : List Uuid := s.children.map Item.uuid

/-- The kinds of the children, in order. -/
def StackActor.child_kinds (s : StackActor) : List ItemType := s.children.map Item.item_type

/-- The identities that have an entry in the ownership map, in key order. -/
def StackActor.owned_uuids (s : StackActor) : List Uuid := s.actors_.map Prod.fst

/-- The document `value` describes the child with identity `uuid`: both identities it
carries are `uuid` and its container type is one the stack can spawn. -/
def is_child_document (value : Json) (uuid : Uuid) : Bool :=
  value.string_at "base" "container" "uuid" == some uuid &&
  value.string_at "base" "item" "uuid" == some uuid &&
  (value.string_at "base" "container" "type" == some "Track" ||
   value.string_at "base" "container" "type" == some "Clip" ||
   value.string_at "base" "container" "type" == some "Gap" ||
   value.string_at "base" "container" "type" == some "Stack")

/-- The members stored by the serialise loop for the entries `m` of the ownership map
when the child owned through actor `a` answers with document `docs a`. -/
def stored_members (docs : Actor → Json) (m : List (Uuid × Actor))
    (kvs : List (String × Json)) : List (String × Json) :=
  m.foldl (fun acc p => Json.insert_member p.1 (docs p.2) acc) kvs

/-- The value of `jsn["actors"]` the serialise handler leaves for the ownership map `m`:
null when the map is empty, else an object with the stored members. -/
def actors_document (docs : Actor → Json) (m : List (Uuid × Actor)) : Json :=
  if m.isEmpty then .null else .obj (stored_members docs m [])

/-! ## Access by index -/

/-- Conversion `static_cast<size_t>(index)` of an `int` on a 64-bit platform. -/
def size_t_of_int (index : Int) : Nat := (index % 2 ^ 64).toNat

/-- Handler `(item_atom, int index)`.  The state is not touched (the handler is a
function of the state only).  `none` stands for undefined behaviour of the source (the
iterator leaving the children); the handler's bounds test is there to exclude it. -/
def StackActor.item_atom_index (s : StackActor) (index : Int) : Option (Except error Item) :=
  if size_t_of_int index ≥ s.base_.item.size then
    some (.error "Invalid index")
  else
    match advance s.children.length 0 index with
    | none => none
    | some it =>
      match s.children[it]? with
      | none => none
      | some item => some (.ok item)

/-- Handler `(remove_item_atom, const int index)`: the iterator is advanced from
`begin()` by `index`, compared with `end()`, and the request is delegated to the handler
for the identity found.  `none` stands for undefined behaviour of the source (the
iterator advanced out of the children). -/
def StackActor.remove_item_atom_index (api : ItemApi) (s : StackActor) (index : Int) :
    Option (StackActor × Except error (JsonStore × Item)) :=
  match advance s.children.length 0 index with
  | none => none
  | some it =>
    match s.children[it]? with
    | none => some (s, .error "Invalid index")
    | some item => some (s.remove_item_atom_uuid api item.uuid)

/-- Handler `(erase_item_atom, const int index)`. -/
def StackActor.erase_item_atom_index (api : ItemApi) (s : StackActor) (index : Int) :
    Option (StackActor × Except error JsonStore) :=
  match advance s.children.length 0 index with
  | none => none
  | some it =>
    match s.children[it]? with
    | none => some (s, .error "Invalid index")
    | some item => some (s.erase_item_atom_uuid api item.uuid)

/-! ## Attribute changes and events -/

/-- Accessor `Item::enabled()`. -/
def Item.enabled : Item → Bool
  | .mk _ _ _ e _ _ _ => e

/-- Accessor `Item::active_range()`. -/
def Item.active_range : Item → FrameRange
  | .mk _ _ _ _ ar _ _ => ar

/-- Accessor `Item::available_range()`. -/
def Item.available_range : Item → FrameRange
  | .mk _ _ _ _ _ av _ => av

/-- The same Item with another enabled flag. -/
def Item.with_enabled : Item → Bool → Item
  | .mk u t a _ ar av cs, e => .mk u t a e ar av cs

/-- The enumeration `ItemAction`, with the values the sources name. -/
inductive ItemAction where
  | IT_ENABLE
  | IT_ACTIVE
  | IT_AVAIL
  | IT_INSERT
  | IT_REMOVE
  | IT_SPLICE
  | IT_ADDR
  | IA_NONE
deriving DecidableEq, Repr

/-- Further member functions of `Item` whose code is not part of the sources; they are
parameters of the model like those of `ItemApi`. -/
structure ItemApi2 where
  /-- Effect and returned document of `Item::set_enabled(value)`; the document is null
  when nothing changed. -/
  set_enabled : Item → Bool → Item × Json
  /-- Effect and returned document of `Item::set_active_range(fr)`. -/
  set_active_range : Item → FrameRange → Item × Json
  /-- Effect and returned document of `Item::set_available_range(fr)`. -/
  set_available_range : Item → FrameRange → Item × Json
  /-- Effect and result of the merge `Item::update(document)`. -/
  update : Item → Json → Item × Bool
  /-- Decoding `static_cast<ItemAction>(event["action"])`. -/
  item_action : Json → ItemAction
  /-- Document made by `Item::make_actor_addr_update()`. -/
  make_actor_addr_update : Item → Json

/-- Handler `(plugin_manager::enable_atom, const bool value)`. -/
def StackActor.enable_atom (api2 : ItemApi2) (s : StackActor) (value : Bool) :
    StackActor × JsonStore :=
  let r := api2.set_enabled s.base_.item value
  let s1 := s.with_item r.1
  if !r.2.is_null then (s1.send_event r.2 false, r.2) else (s1, r.2)

/-- Handler `(active_range_atom, const FrameRange &fr)`. -/
def StackActor.active_range_atom (api2 : ItemApi2) (s : StackActor) (fr : FrameRange) :
    StackActor × JsonStore :=
  let r := api2.set_active_range s.base_.item fr
  let s1 := s.with_item r.1
  if !r.2.is_null then (s1.send_event r.2 false, r.2) else (s1, r.2)

/-- Handler `(available_range_atom, const FrameRange &fr)`. -/
def StackActor.available_range_atom (api2 : ItemApi2) (s : StackActor) (fr : FrameRange) :
    StackActor × JsonStore :=
  let r := api2.set_available_range s.base_.item fr
  let s1 := s.with_item r.1
  if !r.2.is_null then (s1.send_event r.2 false, r.2) else (s1, r.2)

/-- Handler `(event_atom, item_atom, const JsonStore &update, const bool hidden)` for
the events of the children.  `none` when the range insert
`more.insert(more.begin(), update.begin(), update.end())` is applied to an `update` that
is no array (the source would throw or read foreign iterators). -/
def StackActor.event_atom_item (api : ItemApi) (api2 : ItemApi2) (s : StackActor)
    (update : JsonStore) (hidden : Bool) : Option StackActor :=
  let r := api2.update s.base_.item update
  if r.2 then
    let rr := Item.refresh api r.1
    match rr.2 with
    | some more =>
      match update with
      | .arr entries =>
        some ((s.with_item rr.1).send_event (.arr (insert_begin more entries)) hidden)
      | _ => none
    | none => some ((s.with_item rr.1).send_event update hidden)
  else
    some ((s.with_item r.1).send_event update hidden)

/-! ## Child death -/

/-- Position of the first Item routed to `addr`, counted from the front; the length of
the sequence (the position of `end()`) when there is none.  This is
`find_actor_addr(items, addr)` with iterators read as positions. -/
def find_actor_addr : List Item → Actor → Nat
  | [], _ => 0
  | c :: cs, addr => if c.actor = addr then 0 else find_actor_addr cs addr + 1

/-- The loop of the down handler over `actors_`: position of the first entry whose
actor is `source`; the length of the map when there is none. -/
def map_find_actor : List (Uuid × Actor) → Actor → Nat
  | [], _ => 0
  | p :: m, source => if source = p.2 then 0 else map_find_actor m source + 1

/-- The handler installed with `set_down_handler`, for a down message from `source`. -/
def StackActor.down_handler (api : ItemApi) (s : StackActor) (source : Actor) : StackActor :=
  let i := map_find_actor s.actors_ source
  match s.actors_[i]? with
  | none => s
  | some p =>
    let s1 := s.demonitor p.2
    let s2 := { s1 with actors_ := s1.actors_.eraseIdx i }
    let it := find_actor_addr s2.children source
    if it ≠ s2.children.length then
      let jsn := api.erase_changes s2.base_.item it
      (s2.refresh_and_send api (s2.base_.item.erase it) jsn).1
    else s2

/-! ## Item events -/

/-- Path access `j[a][b]` followed by conversion to a string. -/
def Json.string_at2 (j : Json) (a b : String) : Option String :=
  match j.get a with
  | none => none
  | some ja =>
    match ja.get b with
    | none => none
    | some jb => jb.as_string

/-- Lookup `m[k]` on a `std::map` for a key that is present. -/
def map_at (m : List (Uuid × Actor)) (k : Uuid) : Option Actor :=
  (m.find? (fun p => p.1 == k)).map Prod.snd

/-- The child Item at `position` gets the actor reference `actor`
(`child_item_it->set_actor_addr(actor)`). -/
def Item.set_child_actor_addr (it : Item) (position : Nat) (actor : Actor) : Item :=
  it.with_children (it.children.modify (fun c => c.set_actor_addr actor) position)

/-- Method `StackActor::item_event_callback(event, item)`; the argument `item` is not
used by the source. -/
def StackActor.item_event_callback (api : ItemApi) (api2 : ItemApi2) (s : StackActor)
    (event : JsonStore) : Step StackActor :=
  match event.get "action" with
  | none => .thrown
  | some action =>
    match api2.item_action action with
    | .IT_INSERT =>
      match event.string_at2 "item" "uuid" with
      | none => .thrown
      | some cuuid =>
        let child_item_it := find_uuid s.children cuuid
        if child_item_it ≠ s.children.length ∧ map_count s.actors_ cuuid = 0 then
          match event.get "blind" with
          | none => .thrown
          | some blind =>
            if !blind.is_null then
              match s.deserialise api blind false with
              | .thrown => .thrown
              | .undefined => .undefined
              | .done r =>
                let s1 := r.1.add_item ⟨cuuid, r.2⟩
                let s2 := s1.with_item (s1.base_.item.set_child_actor_addr child_item_it r.2)
                match s2.children[child_item_it]? with
                | none => .undefined
                | some child => .done (s2.send_event (api2.make_actor_addr_update child) true)
            else .done s
        else .done s
    | .IT_REMOVE =>
      match (event.get "item_uuid").bind Json.as_string with
      | none => .thrown
      | some cuuid =>
        if map_count s.actors_ cuuid ≠ 0 then
          match map_at s.actors_ cuuid with
          | none => .undefined
          | some a =>
            let s1 := (s.demonitor a).send_exit a
            .done { s1 with actors_ := map_erase cuuid s1.actors_ }
        else .done s
    | _ => .done s

/-! ## Sequences of mutation requests -/

/-- A mutation request to a stack, with the answer of the child's actor to the
re-acquire request where the handler waits for one. -/
inductive Mutation where
  | set_enabled (value : Bool)
  | set_active_range (fr : FrameRange)
  | set_available_range (fr : FrameRange)
  | insert_index (index : Int) (ua : UuidActor) (item : Item) (reacquired : Except error Item)
  | insert_uuid (before_uuid : Uuid) (ua : UuidActor) (item : Item)
      (reacquired : Except error Item)
  | move (src_uuid : Uuid) (count : Int) (before_uuid : Uuid)
  | remove (uuid : Uuid)

/-- The handler of one mutation request: the state it leaves and the delta or error it
returns to the caller.  `none` stands for undefined behaviour of the move handler. -/
def StackActor.handle (api : ItemApi) (api2 : ItemApi2) (s : StackActor) :
    Mutation → Option (StackActor × Except error JsonStore)
  | .set_enabled value =>
    some ((s.enable_atom api2 value).1, .ok (s.enable_atom api2 value).2)
  | .set_active_range fr =>
    some ((s.active_range_atom api2 fr).1, .ok (s.active_range_atom api2 fr).2)
  | .set_available_range fr =>
    some ((s.available_range_atom api2 fr).1, .ok (s.available_range_atom api2 fr).2)
  | .insert_index index ua item reacquired =>
    some (s.insert_item_atom_index api index ua item reacquired)
  | .insert_uuid before_uuid ua item reacquired =>
    some (s.insert_item_atom_uuid api before_uuid ua item reacquired)
  | .move src_uuid count before_uuid => s.move_item_atom_uuid api src_uuid count before_uuid
  | .remove uuid =>
    match s.remove_item_atom_uuid api uuid with
    | (s1, .ok hist_item) => some (s1, .ok hist_item.1)
    | (s1, .error err) => some (s1, .error err)

/-- A sequence of mutation requests handled in order: the final state and what each
caller got back. -/
def StackActor.handle_all (api : ItemApi) (api2 : ItemApi2) :
    List Mutation → StackActor → Option (StackActor × List (Except error JsonStore))
  | [], s => some (s, [])
  | m :: ms, s =>
    match s.handle api api2 m with
    | none => none
    | some r =>
      match StackActor.handle_all api api2 ms r.1 with
      | none => none
      | some rs => some (rs.1, r.2 :: rs.2)

/-- The events a subscriber expects from what the callers got back: every returned
document that is not null, not hidden, in the order of the requests. -/
def returned_deltas : List (Except error JsonStore) → List (JsonStore × Bool)
  | [] => []
  | .ok jsn :: rest => if jsn.is_null then returned_deltas rest else (jsn, false) :: returned_deltas rest
  | .error _ :: rest => returned_deltas rest

/-! ## Further concrete instances -/

/-- A concrete choice of the further parameters: an attribute setter returns null when
the value is the one already set, the merge of a child event always succeeds, actions
are tagged by name. -/
def demo_api2 : ItemApi2 :=
  { set_enabled := fun it value =>
      if it.enabled = value then (it, .null)
      else (it.with_enabled value, .arr [demo_change "enable" 0 it.uuid]),
    set_active_range := fun it fr =>
      if it.active_range = fr then (it, .null)
      else (it.with_ranges fr it.available_range, .arr [demo_change "active" 0 it.uuid]),
    set_available_range := fun it fr =>
      if it.available_range = fr then (it, .null)
      else (it.with_ranges it.active_range fr, .arr [demo_change "avail" 0 it.uuid]),
    update := fun it _ => (it, true),
    item_action := fun j =>
      if j.as_string = some "insert" then .IT_INSERT
      else if j.as_string = some "remove" then .IT_REMOVE
      else .IA_NONE,
    make_actor_addr_update := fun it => .arr [demo_change "addr" it.actor it.uuid] }

/-- The parameters of `demo_api`, but with a refresh that always recomputes the ranges
and reports one secondary change. -/
def demo_api_refresh : ItemApi :=
  { demo_api with
    refresh := fun it => some (⟨0, 10⟩, ⟨0, 10⟩, [demo_change "refresh" 0 it.uuid]) }

/-- A disabled track `a` without actor reference, as left in the children when its
actor was destroyed, and no ownership entry. -/
def demo_placeholder : StackActor :=
  demo_stack [.mk "a" .IT_TRACK 0 false ⟨0, 0⟩ ⟨0, 0⟩ []] []

/-- An item event with the given action tag for the child `uuid`, carrying `blind`. -/
def demo_event (action : String) (uuid : Uuid) (blind : Json) : Json :=
  .obj [("action", .str action), ("blind", blind),
        ("item", .obj [("uuid", .str uuid)]), ("item_uuid", .str uuid)]

/-- The actor references of the children, in order. -/
def StackActor.child_actors (s : StackActor) : List Actor := s.children.map Item.actor

/-- The result of a piece of code that completed normally. -/
def Step.toOption {α : Type} : Step α → Option α
  | .done a => some a
  | .thrown => none
  | .undefined => none

/-- A document for the child `uuid` with the container type "Timeline", which the stack
cannot spawn. -/
def demo_timeline_doc (uuid : Uuid) : Json :=
  .obj [("base", .obj [("container", .obj [("type", .str "Timeline"), ("uuid", .str uuid)]),
                       ("item", .obj [("uuid", .str uuid)])])]

/-- A track `a` without actor reference and without ownership entry (a placeholder, as
in `demo_placeholder`) in front of the track `b` owned through actor 12. -/
def demo_half_owned : StackActor :=
  demo_stack [.mk "a" .IT_TRACK 0 false ⟨0, 0⟩ ⟨0, 0⟩ [], leaf "b" .IT_TRACK 12] [("b", 12)]

/-- The stack of four tracks after two insert requests at index 0 for the same child, the
track `e` behind actor 15, each answered by that actor with its Item. -/
def demo_twice : StackActor :=
  ((demo_four.insert_item_atom_index demo_api 0 ⟨"e", 15⟩ (leaf "e" .IT_TRACK 15)
      (.ok (leaf "e" .IT_TRACK 15))).1.insert_item_atom_index demo_api 0 ⟨"e", 15⟩
    (leaf "e" .IT_TRACK 15) (.ok (leaf "e" .IT_TRACK 15))).1

/-! ## The global colour pipeline actor

An embedding of `GlobalColourPipelineActor::make_or_get_colour_pipeline` in
`src/colour_pipeline/src/colour_pipeline_actor.cpp`. -/

/-- Modelled from the spec: `plugin_manager::PluginDetail` is not part of the sources;
the record has the members the actor reads. -/
structure PluginDetail where
  name_ : String
  uuid_ : Uuid
  enabled_ : Bool

/-- State of a `GlobalColourPipelineActor` as far as the lookup uses it, and what the
lookup has done so far (spawn requests sent to the plugin manager, actors linked,
values delivered to the response promise). -/
structure GlobalColourPipelineActor where
  /-- Member `colour_pipeline_actors_`, a `std::map<std::string, caf::actor>`. -/
  colour_pipeline_actors_ : List (String × Actor)
  /-- Member `colour_pipe_plugin_details_`. -/
  colour_pipe_plugin_details_ : List PluginDetail
  /-- Member `default_plugin_name_`. -/
  default_plugin_name_ : String
  /-- Requests `(spawn_plugin_atom, uuid, jsn)` sent to the plugin manager, oldest first. -/
  spawn_requests : List (Uuid × JsonStore)
  /-- Actors linked with `link_to`. -/
  linked : List Actor
  /-- Values and errors delivered to the response promise `rp`, oldest first. -/
  delivered : List (Except error Actor)

/-- The loop `for (const auto &i : colour_pipe_plugin_details_) if (i.name_ == pipe_name)
{ uuid = i.uuid_; break; }` started with the null identity. -/
def plugin_uuid : List PluginDetail → String → Uuid
  | [], _ => Uuid.null
  | i :: rest, pipe_name => if i.name_ = pipe_name then i.uuid_ else plugin_uuid rest pipe_name

/-- Effect of `rp.deliver(..)`. -/
def GlobalColourPipelineActor.deliver (s : GlobalColourPipelineActor)
    (r : Except error Actor) : GlobalColourPipelineActor :=
  { s with delivered := s.delivered ++ [r] }

/-- Effect of `request(pm, infinite, spawn_plugin_atom_v, uuid, jsn)`. -/
def GlobalColourPipelineActor.request_spawn (s : GlobalColourPipelineActor) (uuid : Uuid)
    (jsn : JsonStore) : GlobalColourPipelineActor :=
  { s with spawn_requests := s.spawn_requests ++ [(uuid, jsn)] }

/-- Method `GlobalColourPipelineActor::make_or_get_colour_pipeline(pipe_name, jsn, rp)`.
`builtin` is the constant `BUILTIN_PLUGIN_NAME` (not part of the sources); `reply k uuid`
is the answer of the plugin manager to the spawn request for `uuid` when `k` spawn
requests have been sent before it.  The recursive call is the fallback of the source;
it ends because it is made only while the default is not the builtin name and with the
default set to the builtin name. -/
def GlobalColourPipelineActor.make_or_get_colour_pipeline (builtin : String)
    (reply : Nat → Uuid → Except error Actor) (s : GlobalColourPipelineActor)
    (pipe_name : String) (jsn : JsonStore) : GlobalColourPipelineActor :=
  match map_at s.colour_pipeline_actors_ pipe_name with
  | some colour_pipe => s.deliver (.ok colour_pipe)
  | none =>
    if (plugin_uuid s.colour_pipe_plugin_details_ pipe_name).is_null then
      s.deliver (.error "create_colour_pipeline failed, invalid colour pipeline name.")
    else
      match reply s.spawn_requests.length
          (plugin_uuid s.colour_pipe_plugin_details_ pipe_name) with
      | .ok colour_pipe =>
        ({ s.request_spawn (plugin_uuid s.colour_pipe_plugin_details_ pipe_name) jsn with
            linked := s.linked ++ [colour_pipe],
            colour_pipeline_actors_ :=
              map_assign pipe_name colour_pipe s.colour_pipeline_actors_ }).deliver
          (.ok colour_pipe)
      | .error err =>
        if _h : pipe_name = s.default_plugin_name_ ∧ s.default_plugin_name_ ≠ builtin then
          GlobalColourPipelineActor.make_or_get_colour_pipeline builtin reply
            { s.request_spawn (plugin_uuid s.colour_pipe_plugin_details_ pipe_name) jsn with
              default_plugin_name_ := builtin }
            builtin jsn
        else
          (s.request_spawn (plugin_uuid s.colour_pipe_plugin_details_ pipe_name) jsn).deliver
            (.error err)
termination_by (if s.default_plugin_name_ = builtin then 0 else 1)
decreasing_by
  have hne := _h.2
  simp [GlobalColourPipelineActor.request_spawn, hne]

/-- A colour pipeline actor that knows the plugins `OCIO` (identity `u1`) and `Fancy`
(identity `u2`), has `Fancy` as default and nothing loaded yet. -/
def demo_colour : GlobalColourPipelineActor :=
  { colour_pipeline_actors_ := [],
    colour_pipe_plugin_details_ := [⟨"OCIO", "u1", true⟩, ⟨"Fancy", "u2", true⟩],
    default_plugin_name_ := "Fancy",
    spawn_requests := [], linked := [], delivered := [] }

/-- A plugin manager whose first spawn fails and whose later spawns give actor 7. -/
def demo_spawn (k : Nat) (_uuid : Uuid) : Except error Actor :=
  if k = 0 then .error "spawn failed" else .ok 7

/-! ## Basic facts about Items and the state -/

@[simp] theorem Item.children_with_children (it : Item) (cs : List Item) :
    (it.with_children cs).children = cs := by
  cases it; rfl

@[simp] theorem Item.children_with_ranges (it : Item) (ar av : FrameRange) :
    (it.with_ranges ar av).children = it.children := by
  cases it; rfl

@[simp] theorem Item.children_set_actor_addr (it : Item) (a : Actor) :
    (it.set_actor_addr a).children = it.children := by
  cases it; rfl

@[simp] theorem Item.children_refresh (api : ItemApi) (it : Item) :
    (Item.refresh api it).1.children = it.children := by
  unfold Item.refresh
  split <;> simp

@[simp] theorem StackActor.children_with_item (s : StackActor) (it : Item) :
    (s.with_item it).children = it.children := rfl

@[simp] theorem StackActor.children_add_item (s : StackActor) (ua : UuidActor) :
    (s.add_item ua).children = s.children := rfl

@[simp] theorem StackActor.children_refresh_and_send (api : ItemApi) (s : StackActor)
    (changed : Item) (changes : List Json) :
    (s.refresh_and_send api changed changes).1.children = changed.children := by
  simp [StackActor.refresh_and_send, StackActor.send_event, StackActor.children,
    StackActor.with_item]

@[simp] theorem StackActor.actors_refresh_and_send (api : ItemApi) (s : StackActor)
    (changed : Item) (changes : List Json) :
    (s.refresh_and_send api changed changes).1.actors_ = s.actors_ := rfl

@[simp] theorem StackActor.exits_refresh_and_send (api : ItemApi) (s : StackActor)
    (changed : Item) (changes : List Json) :
    (s.refresh_and_send api changed changes).1.exits = s.exits := rfl

@[simp] theorem StackActor.published_refresh_and_send (api : ItemApi) (s : StackActor)
    (changed : Item) (changes : List Json) :
    (s.refresh_and_send api changed changes).1.published =
      s.published ++ [((s.refresh_and_send api changed changes).2, false)] := rfl

theorem find_uuid_le (cs : List Item) (u : Uuid) : find_uuid cs u ≤ cs.length := by
  induction cs with
  | nil => simp [find_uuid]
  | cons c cs ih =>
    simp only [find_uuid]
    split <;> simp [ih]

theorem find_uuid_eq_length (cs : List Item) (u : Uuid) :
    find_uuid cs u = cs.length ↔ u ∉ cs.map Item.uuid := by
  induction cs with
  | nil => simp [find_uuid]
  | cons c cs ih =>
    simp only [find_uuid, List.map_cons, List.mem_cons, List.length_cons]
    by_cases h : c.uuid = u
    · simp [h]
    · simp only [h, if_false, Nat.add_right_cancel_iff, ih]
      constructor
      · intro hn hm
        rcases hm with hm | hm
        · exact h hm.symm
        · exact hn hm
      · intro hn hm
        exact hn (Or.inr hm)

theorem find_uuid_lt_of_mem (cs : List Item) (u : Uuid) (h : u ∈ cs.map Item.uuid) :
    find_uuid cs u < cs.length := by
  have h1 := find_uuid_le cs u
  have h2 := (find_uuid_eq_length cs u).not.mpr (by simpa using h)
  omega

theorem find_uuid_get (cs : List Item) (u : Uuid) (c : Item)
    (h : cs[find_uuid cs u]? = some c) : c.uuid = u := by
  induction cs with
  | nil => simp [find_uuid] at h
  | cons d cs ih =>
    simp only [find_uuid] at h
    by_cases hd : d.uuid = u
    · simp [hd] at h
      rw [← h]; exact hd
    · simp [hd] at h
      exact ih h

theorem find_uuid_first (cs : List Item) (u : Uuid) (j : Nat) (c : Item)
    (hj : j < find_uuid cs u) (h : cs[j]? = some c) : c.uuid ≠ u := by
  induction cs generalizing j with
  | nil => simp at h
  | cons d cs ih =>
    simp only [find_uuid] at hj
    by_cases hd : d.uuid = u
    · simp [hd] at hj
    · simp only [hd, if_false] at hj
      cases j with
      | zero =>
        simp at h
        rw [← h]; exact hd
      | succ j =>
        simp at h
        exact ih j (by omega) h

theorem insert_position_eq (index : Int) (rest : List Item) (i : Int) (pos : Nat)
    (h1 : i ≤ index) (h2 : index - i ≤ rest.length) :
    insert_position index i rest pos = pos + (index - i).toNat := by
  induction rest generalizing i pos with
  | nil =>
    simp only [List.length_nil, Nat.cast_zero] at h2
    have : index - i = 0 := by omega
    simp [insert_position, this]
  | cons c rest ih =>
    simp only [insert_position]
    by_cases hi : i = index
    · simp [hi]
    · simp only [hi, if_false]
      simp only [List.length_cons, Nat.cast_add, Nat.cast_one] at h2
      rw [ih (i + 1) (pos + 1) (by omega) (by omega)]
      omega

theorem getElem_take_cons_drop {α : Type} (l : List α) (x : α) (k : Nat)
    (hk : k ≤ l.length) : (l.take k ++ x :: l.drop k)[k]? = some x := by
  induction l generalizing k with
  | nil =>
    have : k = 0 := by simpa using hk
    simp [this]
  | cons a l ih =>
    cases k with
    | zero => simp
    | succ k =>
      simp only [List.length_cons, Nat.add_le_add_iff_right] at hk
      simpa using ih k hk

theorem eraseIdx_take_cons_drop {α : Type} (l : List α) (x : α) (k : Nat)
    (hk : k ≤ l.length) : (l.take k ++ x :: l.drop k).eraseIdx k = l := by
  induction l generalizing k with
  | nil =>
    have : k = 0 := by simpa using hk
    simp [this]
  | cons a l ih =>
    cases k with
    | zero => simp
    | succ k =>
      simp only [List.length_cons, Nat.add_le_add_iff_right] at hk
      simpa using ih k hk

theorem length_take_cons_drop {α : Type} (l : List α) (x : α) (k : Nat)
    (hk : k ≤ l.length) : (l.take k ++ x :: l.drop k).length = l.length + 1 := by
  simp only [List.length_append, List.length_take, List.length_cons, List.length_drop]
  omega

/-! ## Insert -/

/-- C2 (order preservation on insert by index): for a stack with `n` children, an index
with `0 ≤ index ≤ n` and a child that passes the type check, the insert-by-index handler,
once the child's actor has answered the re-acquire request with its Item, delivers a
delta, and afterwards the child at position `index` is the child's Item (so it has the
inserted child's identity), the child count is `n + 1`, and removing position `index`
gives back the previous children in their previous order. -/
theorem insert_by_index_order (api : ItemApi) (s : StackActor) (index : Int)
    (ua : UuidActor) (item child : Item)
    (h0 : 0 ≤ index) (hn : index ≤ s.children.length)
    (hv : api.valid_child s.base_.item item = true) :
    ∃ changes,
      (s.insert_item_atom_index api index ua item (.ok child)).2 = .ok changes ∧
      (s.insert_item_atom_index api index ua item (.ok child)).1.children[index.toNat]?
        = some child ∧
      (s.insert_item_atom_index api index ua item (.ok child)).1.child_uuids[index.toNat]?
        = some child.uuid ∧
      (s.insert_item_atom_index api index ua item (.ok child)).1.children.length
        = s.children.length + 1 ∧
      (s.insert_item_atom_index api index ua item (.ok child)).1.children.eraseIdx
        index.toNat = s.children := by
  have hpos : insert_position index 0 s.children 0 = index.toNat := by
    rw [insert_position_eq index s.children 0 0 h0 (by simpa using hn)]
    simp
  have hk : index.toNat ≤ s.children.length := by omega
  have hch : (s.insert_item_atom_index api index ua item (.ok child)).1.children
      = s.children.take index.toNat ++ child :: s.children.drop index.toNat := by
    simp [StackActor.insert_item_atom_index, hv, hpos, Item.insert]
    rfl
  have hreply : ∃ changes,
      (s.insert_item_atom_index api index ua item (.ok child)).2 = .ok changes := by
    simp [StackActor.insert_item_atom_index, hv]
  obtain ⟨changes, hreply⟩ := hreply
  refine ⟨changes, hreply, ?_, ?_, ?_, ?_⟩
  · rw [hch]; exact getElem_take_cons_drop _ _ _ hk
  · simp only [StackActor.child_uuids, hch, List.getElem?_map,
      getElem_take_cons_drop _ _ _ hk, Option.map_some']
  · rw [hch]; exact length_take_cons_drop _ _ _ hk
  · rw [hch]; exact eraseIdx_take_cons_drop _ _ _ hk

/-- Instance of `insert_by_index_order`: a track inserted at index 2 of four tracks. -/
theorem insert_by_index_order_witness :
    (0 : Int) ≤ 2 ∧ (2 : Int) ≤ demo_four.children.length ∧
    demo_api.valid_child demo_four.base_.item (leaf "e" .IT_TRACK 15) = true ∧
    ∃ changes,
      (demo_four.insert_item_atom_index demo_api 2 ⟨"e", 15⟩ (leaf "e" .IT_TRACK 15)
        (.ok (leaf "e" .IT_TRACK 15))).2 = .ok changes ∧
      (demo_four.insert_item_atom_index demo_api 2 ⟨"e", 15⟩ (leaf "e" .IT_TRACK 15)
        (.ok (leaf "e" .IT_TRACK 15))).1.children[(2 : Int).toNat]?
        = some (leaf "e" .IT_TRACK 15) ∧
      (demo_four.insert_item_atom_index demo_api 2 ⟨"e", 15⟩ (leaf "e" .IT_TRACK 15)
        (.ok (leaf "e" .IT_TRACK 15))).1.child_uuids[(2 : Int).toNat]?
        = some (leaf "e" .IT_TRACK 15).uuid ∧
      (demo_four.insert_item_atom_index demo_api 2 ⟨"e", 15⟩ (leaf "e" .IT_TRACK 15)
        (.ok (leaf "e" .IT_TRACK 15))).1.children.length
        = demo_four.children.length + 1 ∧
      (demo_four.insert_item_atom_index demo_api 2 ⟨"e", 15⟩ (leaf "e" .IT_TRACK 15)
        (.ok (leaf "e" .IT_TRACK 15))).1.children.eraseIdx (2 : Int).toNat
        = demo_four.children :=
  ⟨by decide, by decide, by decide,
    insert_by_index_order demo_api demo_four 2 ⟨"e", 15⟩ (leaf "e" .IT_TRACK 15)
      (leaf "e" .IT_TRACK 15) (by decide) (by decide) (by decide)⟩

/-- C3 (type gate): when the child's Item is not a valid child type for the stack, both
insert handlers (by index and by before-identity) fail with the error
"Invalid child type" and leave the whole state of the actor, in particular the children,
the ownership map and the published events, exactly as it was. -/
theorem insert_type_gate (api : ItemApi) (s : StackActor) (index : Int) (before_uuid : Uuid)
    (ua : UuidActor) (item : Item) (reacquired : Except error Item)
    (h : api.valid_child s.base_.item item = false) :
    s.insert_item_atom_index api index ua item reacquired
        = (s, .error "Invalid child type") ∧
    s.insert_item_atom_uuid api before_uuid ua item reacquired
        = (s, .error "Invalid child type") := by
  simp [StackActor.insert_item_atom_index, StackActor.insert_item_atom_uuid, h]

/-- Instance of `insert_type_gate`: a clip offered to a stack that accepts tracks and
stacks only. -/
theorem insert_type_gate_witness :
    demo_api.valid_child demo_four.base_.item (leaf "x" .IT_CLIP 20) = false ∧
    (demo_four.insert_item_atom_index demo_api 0 ⟨"x", 20⟩ (leaf "x" .IT_CLIP 20)
        (.ok (leaf "x" .IT_CLIP 20)) = (demo_four, .error "Invalid child type") ∧
     demo_four.insert_item_atom_uuid demo_api "a" ⟨"x", 20⟩ (leaf "x" .IT_CLIP 20)
        (.ok (leaf "x" .IT_CLIP 20)) = (demo_four, .error "Invalid child type")) :=
  ⟨by decide,
    insert_type_gate demo_api demo_four 0 "a" ⟨"x", 20⟩ (leaf "x" .IT_CLIP 20)
      (.ok (leaf "x" .IT_CLIP 20)) (by decide)⟩

/-! ## Remove -/

theorem not_mem_map_erase (k : Uuid) (m : List (Uuid × Actor)) :
    k ∉ (map_erase k m).map Prod.fst := by
  simp [map_erase]

theorem mem_map_erase (k k' : Uuid) (m : List (Uuid × Actor)) :
    k' ∈ (map_erase k m).map Prod.fst ↔ k' ≠ k ∧ k' ∈ m.map Prod.fst := by
  simp only [map_erase, List.mem_map, List.mem_filter, Bool.not_eq_eq_eq_not, Bool.not_true,
    beq_eq_false_iff_ne, ne_eq, Prod.exists, exists_and_right, exists_eq_right]
  constructor
  · intro h
    tauto
  · intro h
    tauto

theorem not_mem_eraseIdx_find_uuid (cs : List Item) (u : Uuid)
    (hd : (cs.map Item.uuid).Nodup) :
    u ∉ (cs.eraseIdx (find_uuid cs u)).map Item.uuid := by
  induction cs with
  | nil => simp
  | cons c cs ih =>
    simp only [List.map_cons, List.nodup_cons] at hd
    simp only [find_uuid]
    by_cases hc : c.uuid = u
    · simp only [hc, if_true, List.eraseIdx_cons_zero]
      rw [← hc]; exact hd.1
    · simp only [hc, if_false, List.eraseIdx_cons_succ, List.map_cons, List.mem_cons, not_or]
      exact ⟨fun h => hc h.symm, ih hd.2⟩

theorem remove_item_children (api : ItemApi) (s : StackActor) (u : Uuid) :
    (s.remove_item_atom_uuid api u).1.children
      = s.children.eraseIdx (find_uuid s.children u) := by
  cases hget : s.children[find_uuid s.children u]? with
  | none =>
    have hlen : s.children.length ≤ find_uuid s.children u := by
      simpa using (List.getElem?_eq_none_iff.mp hget)
    simp [StackActor.remove_item_atom_uuid, hget, List.eraseIdx_of_length_le hlen]
  | some item =>
    simp [StackActor.remove_item_atom_uuid, hget, Item.erase, StackActor.demonitor]
    rfl

/-- C5 (idempotent detach): a remove of an identity that is not among the children fails
with an error and leaves the whole state (children, ownership map, published events) as
it was; hence, in a stack whose child identities are pairwise distinct, after a
successful remove of `uuid` a second remove of `uuid` fails and changes nothing. -/
theorem remove_absent_fails (api : ItemApi) (s : StackActor) (uuid : Uuid) :
    (uuid ∉ s.child_uuids →
      s.remove_item_atom_uuid api uuid = (s, .error "Invalid uuid")) ∧
    (s.child_uuids.Nodup → uuid ∈ s.child_uuids →
      (∃ hist_item, (s.remove_item_atom_uuid api uuid).2 = .ok hist_item) ∧
      (s.remove_item_atom_uuid api uuid).1.remove_item_atom_uuid api uuid
        = ((s.remove_item_atom_uuid api uuid).1, .error "Invalid uuid")) := by
  have key : ∀ t : StackActor, uuid ∉ t.child_uuids →
      t.remove_item_atom_uuid api uuid = (t, .error "Invalid uuid") := by
    intro t h
    have hlen := (find_uuid_eq_length t.children uuid).mpr h
    have hget : t.children[find_uuid t.children uuid]? = none := by
      rw [hlen]; simp
    simp [StackActor.remove_item_atom_uuid, hget]
  refine ⟨key s, ?_⟩
  intro hd hm
  constructor
  · have hlt := find_uuid_lt_of_mem s.children uuid hm
    have hget : s.children[find_uuid s.children uuid]?
        = some (s.children[find_uuid s.children uuid]) := List.getElem?_eq_getElem hlt
    simp [StackActor.remove_item_atom_uuid, hget]
  · apply key
    simp only [StackActor.child_uuids, remove_item_children]
    exact not_mem_eraseIdx_find_uuid s.children uuid hd

/-- Instance of `remove_absent_fails`: an unknown identity, and track `b` removed twice
from four tracks. -/
theorem remove_absent_fails_witness :
    ("zz" ∉ demo_four.child_uuids ∧
      demo_four.remove_item_atom_uuid demo_api "zz" = (demo_four, .error "Invalid uuid")) ∧
    (demo_four.child_uuids.Nodup ∧ "b" ∈ demo_four.child_uuids ∧
      (∃ hist_item, (demo_four.remove_item_atom_uuid demo_api "b").2 = .ok hist_item) ∧
      (demo_four.remove_item_atom_uuid demo_api "b").1.remove_item_atom_uuid demo_api "b"
        = ((demo_four.remove_item_atom_uuid demo_api "b").1, .error "Invalid uuid")) :=
  ⟨⟨by decide, (remove_absent_fails demo_api demo_four "zz").1 (by decide)⟩,
   ⟨by decide, by decide, (remove_absent_fails demo_api demo_four "b").2 (by decide) (by decide)⟩⟩

/-- C6 (remove of a present child): for an identity `u` among the children, the remove
handler succeeds and returns the Item of the first child with identity `u` together with
the delta, which is the one event it publishes (not hidden); afterwards exactly that
position is gone from the children (all other children stay, in their order), the
ownership map has no entry for `u`, and no exit message has been sent. -/
theorem remove_present (api : ItemApi) (s : StackActor) (u : Uuid)
    (h : u ∈ s.child_uuids) :
    ∃ item changes,
      s.children[find_uuid s.children u]? = some item ∧ item.uuid = u ∧
      (∀ j c, j < find_uuid s.children u → s.children[j]? = some c → c.uuid ≠ u) ∧
      (s.remove_item_atom_uuid api u).2 = .ok (changes, item) ∧
      (s.remove_item_atom_uuid api u).1.published = s.published ++ [(changes, false)] ∧
      (s.remove_item_atom_uuid api u).1.children
        = s.children.eraseIdx (find_uuid s.children u) ∧
      u ∉ (s.remove_item_atom_uuid api u).1.owned_uuids ∧
      (s.remove_item_atom_uuid api u).1.exits = s.exits := by
  have hlt := find_uuid_lt_of_mem s.children u h
  have hget : s.children[find_uuid s.children u]?
      = some (s.children[find_uuid s.children u]) := List.getElem?_eq_getElem hlt
  have hu := find_uuid_get s.children u _ hget
  refine ⟨s.children[find_uuid s.children u],
    ((s.demonitor (s.children[find_uuid s.children u]).actor).refresh_and_send api
      (s.base_.item.erase (find_uuid s.children u))
      (api.erase_changes s.base_.item (find_uuid s.children u))).2,
    hget, hu, ?_, ?_, ?_, remove_item_children api s u, ?_, ?_⟩
  · intro j c hj hc
    exact find_uuid_first s.children u j c hj hc
  · simp [StackActor.remove_item_atom_uuid, hget, StackActor.demonitor,
      StackActor.refresh_and_send, StackActor.with_item, StackActor.send_event]
  · simp [StackActor.remove_item_atom_uuid, hget, StackActor.demonitor,
      StackActor.refresh_and_send, StackActor.with_item, StackActor.send_event]
  · simp only [StackActor.remove_item_atom_uuid, hget, StackActor.owned_uuids,
      StackActor.actors_refresh_and_send, StackActor.demonitor, hu]
    exact not_mem_map_erase u s.actors_
  · simp [StackActor.remove_item_atom_uuid, hget, StackActor.demonitor]

/-! ## Move -/

/-- C4 (order preservation on move), the handler run on four tracks `a b c d`: moving
`a` (count 1) before `c` leaves the order `b c a d`, the run lands behind `c`; moving `a`
before the last child `d` is refused with "Invalid dst uuid"; moving `a` with the null
identity puts it at the end. -/
theorem move_before_lands_behind :
    (demo_four.move_item_atom_uuid demo_api "a" 1 "c").map (fun r => r.1.child_uuids)
      = some ["b", "c", "a", "d"] ∧
    demo_four.move_item_atom_uuid demo_api "a" 1 "d"
      = some (demo_four, .error "Invalid dst uuid") ∧
    (demo_four.move_item_atom_uuid demo_api "a" 1 Uuid.null).map (fun r => r.1.child_uuids)
      = some ["b", "c", "d", "a"] := by
  refine ⟨by decide, by rfl, by decide⟩

/-! ## Fan-out -/

theorem fan_out_collect_ok_iff {α : Type} (ds : List Actor) (reply : Actor → Except error α) :
    (∃ xs, fan_out_collect ds reply = .ok xs) ↔ ∀ a ∈ ds, ∃ b, reply a = .ok b := by
  induction ds with
  | nil => simp [fan_out_collect]
  | cons d ds ih =>
    constructor
    · rintro ⟨xs, hxs⟩
      simp only [fan_out_collect] at hxs
      intro a ha
      cases hd : reply d with
      | error e => simp [hd] at hxs
      | ok x =>
        simp only [hd] at hxs
        cases hr : fan_out_collect ds reply with
        | error e => simp [hr] at hxs
        | ok as =>
          rcases List.mem_cons.mp ha with h | h
          · exact ⟨x, by rw [h, hd]⟩
          · exact ih.mp ⟨as, hr⟩ a h
    · intro hall
      obtain ⟨x, hx⟩ := hall d (by simp)
      obtain ⟨as, has⟩ := ih.mpr (fun a ha => hall a (by simp [ha]))
      exact ⟨x :: as, by simp [fan_out_collect, hx, has]⟩

theorem fan_out_collect_error {α : Type} (ds : List Actor) (reply : Actor → Except error α)
    (e : error) (h : fan_out_collect ds reply = .error e) :
    ∃ a ∈ ds, reply a = .error e := by
  induction ds with
  | nil => simp [fan_out_collect] at h
  | cons d ds ih =>
    simp only [fan_out_collect] at h
    cases hd : reply d with
    | error e' =>
      simp only [hd, Except.error.injEq] at h
      exact ⟨d, by simp, by rw [hd, h]⟩
    | ok a =>
      simp only [hd] at h
      cases hr : fan_out_collect ds reply with
      | error e' =>
        simp only [hr, Except.error.injEq] at h
        obtain ⟨a', ha', he'⟩ := ih (by rw [hr, h])
        exact ⟨a', by simp [ha'], he'⟩
      | ok as => simp [hr] at h

theorem deliver_true_fan_out (ds : List Actor) (reply : Actor → Except error Bool)
    (hne : ds ≠ []) :
    (deliver_true (fan_out_request ds reply) = .ok true ↔ ∀ a ∈ ds, ∃ b, reply a = .ok b) ∧
    ((∃ a ∈ ds, ∃ e, reply a = .error e) →
      ∃ e, deliver_true (fan_out_request ds reply) = .error e ∧
        ∃ a ∈ ds, reply a = .error e) := by
  have hemp : ds.isEmpty = false := by
    cases ds with
    | nil => exact absurd rfl hne
    | cons d ds => rfl
  simp only [fan_out_request, hemp, Bool.false_eq_true, if_false]
  cases hr : fan_out_collect ds reply with
  | error e =>
    have hnot : ¬ ∀ a ∈ ds, ∃ b, reply a = .ok b := by
      rw [← fan_out_collect_ok_iff, hr]; simp
    refine ⟨⟨fun h => ?_, fun h => absurd h hnot⟩,
      fun _ => ⟨e, rfl, fan_out_collect_error ds reply e hr⟩⟩
    simp [deliver_true] at h
  | ok xs =>
    have hall : ∀ a ∈ ds, ∃ b, reply a = .ok b := by
      rw [← fan_out_collect_ok_iff, hr]; exact ⟨xs, rfl⟩
    refine ⟨⟨fun _ => hall, fun _ => rfl⟩, ?_⟩
    rintro ⟨a, ha, e, he⟩
    obtain ⟨b, hb⟩ := hall a ha
    rw [hb] at he
    cases he

/-- C10 as stated fails: four owned children that all answer `link_media` with `false`
make the handler deliver `true`. -/
theorem link_media_ignores_false :
    (∀ a ∈ (demo_four.link_media_atom [] (fun _ => .ok false)).requests,
      (fun _ => (.ok false : Except error Bool)) a = .ok false) ∧
    (demo_four.link_media_atom [] (fun _ => .ok false)).requests = [11, 12, 13, 14] ∧
    (demo_four.link_media_atom [] (fun _ => .ok false)).reply = .ok true := by
  refine ⟨fun _ _ => rfl, by decide, by rfl⟩

/-- C10 amended (link_media): for a stack that owns at least one child, `link_media`
sends the request once to every owned child and leaves the state alone; its result is
true exactly when every child replied without error, whatever the replied values; if
some child replies with an error, the result is an error that a child replied with. -/
theorem link_media_all_reply (s : StackActor) (media : List (Uuid × Actor))
    (reply : Actor → Except error Bool) (hne : s.actors_ ≠ []) :
    (s.link_media_atom media reply).state = s ∧
    (s.link_media_atom media reply).requests = map_value_to_vec s.actors_ ∧
    ((s.link_media_atom media reply).reply = .ok true ↔
      ∀ a ∈ map_value_to_vec s.actors_, ∃ b, reply a = .ok b) ∧
    ((∃ a ∈ map_value_to_vec s.actors_, ∃ e, reply a = .error e) →
      ∃ e, (s.link_media_atom media reply).reply = .error e ∧
        ∃ a ∈ map_value_to_vec s.actors_, reply a = .error e) := by
  have hvec : map_value_to_vec s.actors_ ≠ [] := by
    cases hs : s.actors_ with
    | nil => exact absurd hs hne
    | cons p m => simp [map_value_to_vec]
  exact ⟨rfl, rfl, deliver_true_fan_out (map_value_to_vec s.actors_) reply hvec⟩

/-- Instance of `link_media_all_reply`: four owned children. -/
theorem link_media_all_reply_witness :
    demo_four.actors_ ≠ [] ∧
    (demo_four.link_media_atom [] (fun _ => .ok false)).state = demo_four ∧
    (demo_four.link_media_atom [] (fun _ => .ok false)).requests
      = map_value_to_vec demo_four.actors_ ∧
    ((demo_four.link_media_atom [] (fun _ => .ok false)).reply = .ok true ↔
      ∀ a ∈ map_value_to_vec demo_four.actors_,
        ∃ b, (fun _ => (.ok false : Except error Bool)) a = .ok b) ∧
    ((∃ a ∈ map_value_to_vec demo_four.actors_,
        ∃ e, (fun _ => (.ok false : Except error Bool)) a = .error e) →
      ∃ e, (demo_four.link_media_atom [] (fun _ => .ok false)).reply = .error e ∧
        ∃ a ∈ map_value_to_vec demo_four.actors_,
          (fun _ => (.ok false : Except error Bool)) a = .error e) :=
  ⟨by decide, link_media_all_reply demo_four [] (fun _ => .ok false) (by decide)⟩

/-! ## Serialise -/

theorem lookup_insert_member_self (k : String) (v : Json) (l : List (String × Json)) :
    Json.lookup k (Json.insert_member k v l) = some v := by
  induction l with
  | nil => simp [Json.insert_member, Json.lookup]
  | cons p l ih =>
    obtain ⟨k', v'⟩ := p
    simp only [Json.insert_member]
    by_cases h1 : Uuid.lt k k' = true
    · rw [if_pos h1]; simp [Json.lookup]
    · rw [if_neg h1]
      by_cases h2 : k = k'
      · rw [if_pos h2]; simp [Json.lookup]
      · rw [if_neg h2]
        have h3 : ¬ k' = k := fun h => h2 h.symm
        simp [h3, Json.lookup, ih]

theorem lookup_insert_member_other (k k0 : String) (v : Json) (l : List (String × Json))
    (h : k0 ≠ k) : Json.lookup k0 (Json.insert_member k v l) = Json.lookup k0 l := by
  have h3 : ¬ k = k0 := fun h' => h h'.symm
  induction l with
  | nil => simp [Json.insert_member, Json.lookup, h3]
  | cons p l ih =>
    obtain ⟨k', v'⟩ := p
    simp only [Json.insert_member]
    by_cases h1 : Uuid.lt k k' = true
    · rw [if_pos h1]; simp [Json.lookup, h3]
    · rw [if_neg h1]
      by_cases h2 : k = k'
      · rw [if_pos h2]
        have h4 : ¬ k' = k0 := fun h' => h3 (h2.trans h')
        simp [Json.lookup, h3, h4]
      · rw [if_neg h2]
        simp only [Json.lookup, ih]

theorem lookup_eq_none_iff (k : String) (l : List (String × Json)) :
    Json.lookup k l = none ↔ k ∉ l.map Prod.fst := by
  induction l with
  | nil => simp [Json.lookup]
  | cons p l ih =>
    obtain ⟨k', v'⟩ := p
    simp only [Json.lookup, List.map_cons, List.mem_cons, not_or]
    by_cases h : k' = k
    · simp [h]
    · have h' : ¬ k = k' := fun e => h e.symm
      simp [h, h', ih]

theorem mem_keys_insert_member (k k0 : String) (v : Json) (l : List (String × Json)) :
    k0 ∈ (Json.insert_member k v l).map Prod.fst ↔ k0 = k ∨ k0 ∈ l.map Prod.fst := by
  induction l with
  | nil => simp [Json.insert_member]
  | cons p l ih =>
    obtain ⟨k', v'⟩ := p
    simp only [Json.insert_member]
    by_cases h1 : Uuid.lt k k' = true
    · rw [if_pos h1]; simp
    · rw [if_neg h1]
      by_cases h2 : k = k'
      · rw [if_pos h2]
        simp only [List.map_cons, List.mem_cons]
        rw [← h2]
        tauto
      · rw [if_neg h2]
        simp only [List.map_cons, List.mem_cons, ih]
        tauto

theorem length_insert_member (k : String) (v : Json) (l : List (String × Json))
    (h : k ∉ l.map Prod.fst) : (Json.insert_member k v l).length = l.length + 1 := by
  induction l with
  | nil => simp [Json.insert_member]
  | cons p l ih =>
    obtain ⟨k', v'⟩ := p
    simp only [List.map_cons, List.mem_cons, not_or] at h
    simp only [Json.insert_member]
    by_cases h1 : Uuid.lt k k' = true
    · rw [if_pos h1]; simp
    · rw [if_neg h1, if_neg h.1]
      simp [ih h.2]

theorem mem_insert_member (k : String) (v : Json) (l : List (String × Json))
    (q : String × Json) (h : q ∈ Json.insert_member k v l) : q = (k, v) ∨ q ∈ l := by
  induction l with
  | nil => simpa [Json.insert_member] using h
  | cons p l ih =>
    obtain ⟨k', v'⟩ := p
    simp only [Json.insert_member] at h
    by_cases h1 : Uuid.lt k k' = true
    · rw [if_pos h1] at h
      simpa using h
    · rw [if_neg h1] at h
      by_cases h2 : k = k'
      · rw [if_pos h2] at h
        rcases List.mem_cons.mp h with h | h
        · left; exact h
        · right; exact List.mem_cons_of_mem _ h
      · rw [if_neg h2] at h
        rcases List.mem_cons.mp h with h | h
        · right; rw [h]; exact List.mem_cons_self _ _
        · rcases ih h with h | h
          · left; exact h
          · right; exact List.mem_cons_of_mem _ h

theorem mem_keys_stored_members (docs : Actor → Json) (m : List (Uuid × Actor))
    (kvs : List (String × Json)) (k : String) :
    k ∈ (stored_members docs m kvs).map Prod.fst ↔
      k ∈ m.map Prod.fst ∨ k ∈ kvs.map Prod.fst := by
  induction m generalizing kvs with
  | nil => simp [stored_members]
  | cons p m ih =>
    have := ih (Json.insert_member p.1 (docs p.2) kvs)
    simp only [stored_members, List.foldl_cons] at this ⊢
    rw [this, mem_keys_insert_member]
    simp only [List.map_cons, List.mem_cons]
    tauto

theorem lookup_stored_members_other (docs : Actor → Json) (m : List (Uuid × Actor))
    (kvs : List (String × Json)) (k : String) (h : k ∉ m.map Prod.fst) :
    Json.lookup k (stored_members docs m kvs) = Json.lookup k kvs := by
  induction m generalizing kvs with
  | nil => simp [stored_members]
  | cons p m ih =>
    simp only [List.map_cons, List.mem_cons, not_or] at h
    have := ih (Json.insert_member p.1 (docs p.2) kvs) h.2
    simp only [stored_members, List.foldl_cons] at this ⊢
    rw [this, lookup_insert_member_other _ _ _ _ h.1]

theorem lookup_stored_members (docs : Actor → Json) (m : List (Uuid × Actor))
    (kvs : List (String × Json)) (hk : (m.map Prod.fst).Nodup) (p : Uuid × Actor)
    (hp : p ∈ m) : Json.lookup p.1 (stored_members docs m kvs) = some (docs p.2) := by
  induction m generalizing kvs with
  | nil => simp at hp
  | cons q m ih =>
    simp only [List.map_cons, List.nodup_cons] at hk
    rcases List.mem_cons.mp hp with h | h
    · subst h
      have := lookup_stored_members_other docs m
        (Json.insert_member p.1 (docs p.2) kvs) p.1 hk.1
      simp only [stored_members, List.foldl_cons] at this ⊢
      rw [this, lookup_insert_member_self]
    · have := ih (Json.insert_member q.1 (docs q.2) kvs) hk.2 h
      simpa [stored_members] using this

theorem length_stored_members (docs : Actor → Json) (m : List (Uuid × Actor))
    (kvs : List (String × Json)) (hk : (m.map Prod.fst).Nodup)
    (hdis : ∀ k ∈ m.map Prod.fst, k ∉ kvs.map Prod.fst) :
    (stored_members docs m kvs).length = kvs.length + m.length := by
  induction m generalizing kvs with
  | nil => simp [stored_members]
  | cons q m ih =>
    simp only [List.map_cons, List.nodup_cons] at hk
    have hq : q.1 ∉ kvs.map Prod.fst := hdis q.1 (by simp)
    have := ih (Json.insert_member q.1 (docs q.2) kvs) hk.2 (by
      intro k hk' hmem
      rw [mem_keys_insert_member] at hmem
      rcases hmem with h | h
      · rw [h] at hk'; exact hk.1 hk'
      · exact hdis k (by simp [hk']) h)
    simp only [stored_members, List.foldl_cons] at this ⊢
    rw [this, length_insert_member _ _ _ hq]
    simp only [List.length_cons]
    omega

theorem mem_stored_members (docs : Actor → Json) (m : List (Uuid × Actor))
    (kvs : List (String × Json)) (q : String × Json)
    (h : q ∈ stored_members docs m kvs) :
    (∃ p ∈ m, q = (p.1, docs p.2)) ∨ q ∈ kvs := by
  induction m generalizing kvs with
  | nil => right; simpa [stored_members] using h
  | cons p m ih =>
    simp only [stored_members, List.foldl_cons] at h
    rcases ih (Json.insert_member p.1 (docs p.2) kvs) h with ⟨p', hp', hq⟩ | h
    · left; exact ⟨p', by simp [hp'], hq⟩
    · rcases mem_insert_member _ _ _ _ h with h | h
      · left; exact ⟨p, by simp, h⟩
      · right; exact h

theorem fan_out_collect_all_ok {α : Type} (ds : List Actor) (f : Actor → α) :
    fan_out_collect ds (fun a => (.ok (f a) : Except error α)) = .ok (ds.map f) := by
  induction ds with
  | nil => rfl
  | cons d ds ih => simp [fan_out_collect, ih]

theorem store_actors_obj (docs : Actor → Json) (m : List (Uuid × Actor))
    (kvs : List (String × Json))
    (hdoc : ∀ p ∈ m, (docs p.2).string_at "base" "container" "uuid" = some p.1) :
    store_actors (m.map (fun p => docs p.2)) (.obj kvs)
      = some (.obj (stored_members docs m kvs)) := by
  induction m generalizing kvs with
  | nil => rfl
  | cons p m ih =>
    have hp := hdoc p (by simp)
    have := ih (Json.insert_member p.1 (docs p.2) kvs) (fun q hq => hdoc q (by simp [hq]))
    simp only [List.map_cons, store_actors, hp, Json.set, this]
    rfl

theorem store_actors_null (docs : Actor → Json) (m : List (Uuid × Actor))
    (hdoc : ∀ p ∈ m, (docs p.2).string_at "base" "container" "uuid" = some p.1) :
    store_actors (m.map (fun p => docs p.2)) .null = some (actors_document docs m) := by
  cases m with
  | nil => rfl
  | cons p m =>
    have hp := hdoc p (by simp)
    have := store_actors_obj docs m [(p.1, docs p.2)] (fun q hq => hdoc q (by simp [hq]))
    simp only [List.map_cons, store_actors, hp, Json.set, this]
    rfl

theorem serialise_atom_eq (api : ItemApi) (s : StackActor) (docs : Actor → Json)
    (hdoc : ∀ p ∈ s.actors_, (docs p.2).string_at "base" "container" "uuid" = some p.1) :
    s.serialise_atom api (fun a => .ok (docs a))
      = some (.ok (.obj [("actors", actors_document docs s.actors_),
                         ("base", api.serialise s.base_)])) := by
  have hlt : Uuid.lt "actors" "base" = true := by decide
  have hdocu : ∀ _ : Json, serialise_document (api.serialise s.base_)
      (s.actors_.map (fun p => docs p.2)) = some (.obj [("actors", actors_document docs s.actors_),
        ("base", api.serialise s.base_)]) := by
    intro _
    simp [serialise_document, store_actors_null docs s.actors_ hdoc, Json.set,
      Json.insert_member, hlt]
  cases hm : s.actors_ with
  | nil =>
    simp [StackActor.serialise_atom, hm, serialise_document, store_actors, Json.set,
      Json.insert_member, hlt, actors_document]
  | cons p m =>
    have h1 : fan_out_request (map_value_to_vec (p :: m))
        (fun a => (.ok (docs a) : Except error JsonStore))
        = .ok ((p :: m).map (fun q => docs q.2)) := by
      have hemp : (map_value_to_vec (p :: m)).isEmpty = false := rfl
      simp only [fan_out_request, hemp, Bool.false_eq_true, if_false, map_value_to_vec]
      rw [fan_out_collect_all_ok]
      simp
    have h2 := hdocu .null
    rw [hm] at h2
    simp only [StackActor.serialise_atom, hm, List.isEmpty_cons, Bool.not_false, if_true, h1, h2]

theorem actors_document_get (docs : Actor → Json) (m : List (Uuid × Actor))
    (hk : (m.map Prod.fst).Nodup) (p : Uuid × Actor) (hp : p ∈ m) :
    (actors_document docs m).get p.1 = some (docs p.2) := by
  cases m with
  | nil => simp at hp
  | cons q m =>
    simp only [actors_document, List.isEmpty_cons, Bool.false_eq_true, if_false, Json.get]
    exact lookup_stored_members docs (q :: m) [] hk p hp

theorem actors_document_get_none (docs : Actor → Json) (m : List (Uuid × Actor))
    (k : String) (hk : k ∉ m.map Prod.fst) : (actors_document docs m).get k = none := by
  cases m with
  | nil => rfl
  | cons q m =>
    simp only [actors_document, List.isEmpty_cons, Bool.false_eq_true, if_false, Json.get]
    rw [lookup_stored_members_other docs (q :: m) [] k hk]
    rfl

theorem actors_document_size (docs : Actor → Json) (m : List (Uuid × Actor))
    (hk : (m.map Prod.fst).Nodup) : (actors_document docs m).size = m.length := by
  cases m with
  | nil => rfl
  | cons q m =>
    simp only [actors_document, List.isEmpty_cons, Bool.false_eq_true, if_false, Json.size]
    rw [length_stored_members docs (q :: m) [] hk (by simp)]
    simp

/-- C8 (serialise document shape): for a stack with at least one owned child, when every
child answers serialise with its document (the one carrying the identity it is owned
under), the handler delivers a document that holds the stack's own serialised record
under "base" and, under "actors", each child's document stored under that child's
identity, with exactly as many entries as the ownership map has. -/
theorem serialise_shape (api : ItemApi) (s : StackActor) (docs : Actor → Json)
    (hne : s.actors_ ≠ []) (hkeys : s.owned_uuids.Nodup)
    (hdoc : ∀ p ∈ s.actors_, (docs p.2).string_at "base" "container" "uuid" = some p.1) :
    ∃ jsn actors,
      s.serialise_atom api (fun a => .ok (docs a)) = some (.ok jsn) ∧
      jsn.get "base" = some (api.serialise s.base_) ∧
      jsn.get "actors" = some actors ∧
      (∀ p ∈ s.actors_, actors.get p.1 = some (docs p.2)) ∧
      actors.size = s.actors_.length ∧
      0 < actors.size := by
  refine ⟨_, actors_document docs s.actors_, serialise_atom_eq api s docs hdoc, ?_, ?_,
    fun p hp => actors_document_get docs s.actors_ hkeys p hp,
    actors_document_size docs s.actors_ hkeys, ?_⟩
  · simp [Json.get, Json.lookup]
  · simp [Json.get, Json.lookup]
  · rw [actors_document_size docs s.actors_ hkeys]
    exact List.length_pos.mpr hne

/-! ## Erase -/

theorem map_erase_of_not_mem (u : Uuid) (m : List (Uuid × Actor))
    (h : u ∉ m.map Prod.fst) : map_erase u m = m := by
  induction m with
  | nil => rfl
  | cons q m ih =>
    simp only [List.map_cons, List.mem_cons, not_or] at h
    have hq : ¬ q.1 = u := fun e => h.1 e.symm
    have := ih h.2
    simp only [map_erase] at this ⊢
    rw [List.filter_cons]
    simp [hq, this]

theorem length_map_erase (u : Uuid) (m : List (Uuid × Actor))
    (hk : (m.map Prod.fst).Nodup) (hu : u ∈ m.map Prod.fst) :
    (map_erase u m).length + 1 = m.length := by
  induction m with
  | nil => simp at hu
  | cons q m ih =>
    simp only [List.map_cons, List.nodup_cons] at hk
    by_cases hq : q.1 = u
    · have hnot : u ∉ m.map Prod.fst := by rw [← hq]; exact hk.1
      have h1 : map_erase u (q :: m) = map_erase u m := by
        simp [map_erase, List.filter_cons, hq]
      rw [h1, map_erase_of_not_mem u m hnot]
      simp
    · have hu' : u ∈ m.map Prod.fst := by
        simp only [List.map_cons, List.mem_cons] at hu
        rcases hu with h | h
        · exact absurd h.symm hq
        · exact h
      have h1 : map_erase u (q :: m) = q :: map_erase u m := by
        simp [map_erase, List.filter_cons, hq]
      rw [h1]
      simp only [List.length_cons]
      have := ih hk.2 hu'
      omega

theorem nodup_map_erase (u : Uuid) (m : List (Uuid × Actor))
    (hk : (m.map Prod.fst).Nodup) : ((map_erase u m).map Prod.fst).Nodup := by
  have hsub : List.Sublist ((map_erase u m).map Prod.fst) (m.map Prod.fst) :=
    List.Sublist.map _ (List.filter_sublist _)
  exact List.Nodup.sublist hsub hk

theorem mem_of_mem_map_erase (u : Uuid) (m : List (Uuid × Actor)) (p : Uuid × Actor)
    (h : p ∈ map_erase u m) : p ∈ m := by
  simp only [map_erase, List.mem_filter] at h
  exact h.1

theorem remove_item_ok (api : ItemApi) (s : StackActor) (u : Uuid) (item : Item)
    (hget : s.children[find_uuid s.children u]? = some item) :
    ∃ changes,
      (s.remove_item_atom_uuid api u).2 = .ok (changes, item) ∧
      (s.erase_item_atom_uuid api u).2 = .ok changes ∧
      (s.erase_item_atom_uuid api u).1.exits = s.exits ++ [item.actor] ∧
      (s.erase_item_atom_uuid api u).1.actors_ = map_erase item.uuid s.actors_ ∧
      (s.erase_item_atom_uuid api u).1.children
        = s.children.eraseIdx (find_uuid s.children u) := by
  have hch := remove_item_children api s u
  have hac : (s.remove_item_atom_uuid api u).1.actors_ = map_erase item.uuid s.actors_ := by
    simp [StackActor.remove_item_atom_uuid, hget, StackActor.demonitor]
  have hex : (s.remove_item_atom_uuid api u).1.exits = s.exits := by
    simp [StackActor.remove_item_atom_uuid, hget, StackActor.demonitor]
  have hre : ∃ changes, (s.remove_item_atom_uuid api u).2 = .ok (changes, item) := by
    simp [StackActor.remove_item_atom_uuid, hget]
  obtain ⟨changes, hre⟩ := hre
  cases hr : s.remove_item_atom_uuid api u with
  | mk s1 r =>
    rw [hr] at hch hac hex hre
    simp only at hch hac hex hre
    subst hre
    refine ⟨changes, rfl, ?_, ?_, ?_, ?_⟩
    · simp [StackActor.erase_item_atom_uuid, hr]
    · simp [StackActor.erase_item_atom_uuid, hr, StackActor.send_exit, hex]
    · simp [StackActor.erase_item_atom_uuid, hr, StackActor.send_exit, hac]
    · simp only [StackActor.erase_item_atom_uuid, hr]
      exact hch

theorem erase_item_error (api : ItemApi) (s : StackActor) (v : Uuid) (e : error)
    (h : (s.remove_item_atom_uuid api v).2 = .error e) :
    (s.erase_item_atom_uuid api v).2 = .error e ∧
    (s.erase_item_atom_uuid api v).1.exits = s.exits := by
  cases hget : s.children[find_uuid s.children v]? with
  | none =>
    simp only [StackActor.remove_item_atom_uuid, hget] at h
    have he : "Invalid uuid" = e := Except.error.inj h
    simp [StackActor.erase_item_atom_uuid, StackActor.remove_item_atom_uuid, hget, he]
  | some item =>
    simp [StackActor.remove_item_atom_uuid, hget] at h

theorem mem_eraseIdx_find_uuid_of_ne (cs : List Item) (u k : Uuid) (hne : k ≠ u)
    (hk : k ∈ cs.map Item.uuid) : k ∈ (cs.eraseIdx (find_uuid cs u)).map Item.uuid := by
  induction cs with
  | nil => simp at hk
  | cons c cs ih =>
    simp only [List.map_cons, List.mem_cons] at hk
    simp only [find_uuid]
    by_cases hc : c.uuid = u
    · simp only [hc, if_true, List.eraseIdx_cons_zero]
      rcases hk with h | h
      · exact absurd (h.trans hc) hne
      · exact h
    · simp only [hc, if_false, List.eraseIdx_cons_succ, List.map_cons, List.mem_cons]
      rcases hk with h | h
      · exact Or.inl h
      · exact Or.inr (ih h)

/-- C7 amended (erase is remove plus terminate): in a stack whose child identities are
pairwise distinct, whose ownership map has exactly one entry for each child identity and
no other entry, and whose children answer serialise with the document carrying the
identity they are owned under, `erase(u)` for a child identity `u` delivers the delta
that `remove(u)` returns and sends an exit to the removed child's actor; a serialise
after it has an "actors" entry for exactly the identities of the remaining children, as
many entries as children remain, one entry fewer than a serialise before it, and none
for `u`.  In every stack and for every identity, if `remove` fails, `erase` fails with
the same error and sends no exit. -/
theorem erase_is_remove_then_exit (api : ItemApi) (s : StackActor) (u : Uuid)
    (docs : Actor → Json) :
    (s.child_uuids.Nodup → u ∈ s.child_uuids →
      s.owned_uuids.Nodup → (∀ k, k ∈ s.owned_uuids ↔ k ∈ s.child_uuids) →
      (∀ p ∈ s.actors_, (docs p.2).string_at "base" "container" "uuid" = some p.1) →
      ∃ item changes before after acts_b acts_a,
        s.children[find_uuid s.children u]? = some item ∧
        item.uuid = u ∧
        (s.remove_item_atom_uuid api u).2 = .ok (changes, item) ∧
        (s.erase_item_atom_uuid api u).2 = .ok changes ∧
        (s.erase_item_atom_uuid api u).1.exits = s.exits ++ [item.actor] ∧
        s.serialise_atom api (fun a => .ok (docs a)) = some (.ok before) ∧
        (s.erase_item_atom_uuid api u).1.serialise_atom api (fun a => .ok (docs a))
          = some (.ok after) ∧
        before.get "actors" = some acts_b ∧ after.get "actors" = some acts_a ∧
        (∀ k, (∃ j, acts_a.get k = some j) ↔
          k ∈ (s.erase_item_atom_uuid api u).1.child_uuids) ∧
        acts_a.size = (s.erase_item_atom_uuid api u).1.children.length ∧
        acts_a.get u = none ∧
        acts_a.size + 1 = acts_b.size) ∧
    (∀ e, (s.remove_item_atom_uuid api u).2 = .error e →
      (s.erase_item_atom_uuid api u).2 = .error e ∧
      (s.erase_item_atom_uuid api u).1.exits = s.exits) := by
  refine ⟨?_, fun e h => erase_item_error api s u e h⟩
  intro hd hu hkeys howned hdoc
  have hlt := find_uuid_lt_of_mem s.children u hu
  have hget : s.children[find_uuid s.children u]?
      = some (s.children[find_uuid s.children u]) := List.getElem?_eq_getElem hlt
  have hitem := find_uuid_get s.children u _ hget
  obtain ⟨changes, h1, h2, h3, h4, h5⟩ := remove_item_ok api s u _ hget
  rw [hitem] at h4
  have hdoc2 : ∀ p ∈ (s.erase_item_atom_uuid api u).1.actors_,
      (docs p.2).string_at "base" "container" "uuid" = some p.1 := by
    intro p hp
    rw [h4] at hp
    exact hdoc p (mem_of_mem_map_erase u s.actors_ p hp)
  have hkeys2 : ((s.erase_item_atom_uuid api u).1.actors_.map Prod.fst).Nodup := by
    rw [h4]; exact nodup_map_erase u s.actors_ hkeys
  have hlen1 : (map_erase u s.actors_).length + 1 = s.actors_.length :=
    length_map_erase u s.actors_ hkeys ((howned u).mpr hu)
  have hperm : s.owned_uuids.length = s.child_uuids.length :=
    List.Perm.length_eq ((List.perm_ext_iff_of_nodup hkeys hd).mpr howned)
  have hlen2 : s.actors_.length = s.children.length := by
    simpa [StackActor.owned_uuids, StackActor.child_uuids] using hperm
  refine ⟨_, changes, _, _, actors_document docs s.actors_,
    actors_document docs (s.erase_item_atom_uuid api u).1.actors_, hget, hitem, h1, h2, h3,
    serialise_atom_eq api s docs hdoc,
    serialise_atom_eq api (s.erase_item_atom_uuid api u).1 docs hdoc2, ?_, ?_, ?_, ?_, ?_, ?_⟩
  · simp [Json.get, Json.lookup]
  · simp [Json.get, Json.lookup]
  · intro k
    constructor
    · rintro ⟨j, hj⟩
      have hmem : k ∈ (s.erase_item_atom_uuid api u).1.actors_.map Prod.fst := by
        by_contra hnot
        rw [actors_document_get_none docs _ k hnot] at hj
        cases hj
      rw [h4] at hmem
      obtain ⟨hne, hown⟩ := (mem_map_erase u k s.actors_).mp hmem
      simp only [StackActor.child_uuids, h5]
      exact mem_eraseIdx_find_uuid_of_ne s.children u k hne ((howned k).mp hown)
    · intro hk
      simp only [StackActor.child_uuids, h5] at hk
      have hnot := not_mem_eraseIdx_find_uuid s.children u hd
      have hk0 : k ∈ s.child_uuids := by
        simp only [StackActor.child_uuids, List.mem_map] at hk ⊢
        obtain ⟨c, hc, hck⟩ := hk
        exact ⟨c, List.mem_of_mem_eraseIdx hc, hck⟩
      have hne : k ≠ u := fun e => hnot (e ▸ hk)
      have hmem : k ∈ (s.erase_item_atom_uuid api u).1.actors_.map Prod.fst := by
        rw [h4]
        exact (mem_map_erase u k s.actors_).mpr ⟨hne, (howned k).mpr hk0⟩
      obtain ⟨p, hp, hpk⟩ := List.mem_map.mp hmem
      refine ⟨docs p.2, ?_⟩
      rw [← hpk]
      exact actors_document_get docs _ hkeys2 p hp
  · rw [actors_document_size docs _ hkeys2, h4, h5, List.length_eraseIdx, if_pos hlt]
    omega
  · apply actors_document_get_none
    rw [h4]
    exact not_mem_map_erase u s.actors_
  · rw [actors_document_size docs _ hkeys2, actors_document_size docs _ hkeys, h4]
    exact hlen1

/-- C7 as stated fails: the children `a`, `b` of this stack have distinct identities, but
`a` is a placeholder without ownership entry.  Erasing `a` succeeds, sends the exit to
the invalid handle and leaves one "actors" entry where there was one before; erasing
`b` succeeds and the serialise after it has no "actors" entry for the remaining child
`a`. -/
theorem erase_entries_not_per_child :
    demo_half_owned.child_uuids.Nodup ∧
    (∃ changes before after acts_b acts_a,
      (demo_half_owned.erase_item_atom_uuid demo_api "a").2 = .ok changes ∧
      (demo_half_owned.erase_item_atom_uuid demo_api "a").1.exits = [0] ∧
      (demo_half_owned.erase_item_atom_uuid demo_api "a").1.child_uuids = ["b"] ∧
      demo_half_owned.serialise_atom demo_api (fun a => .ok (demo_docs a))
        = some (.ok before) ∧
      (demo_half_owned.erase_item_atom_uuid demo_api "a").1.serialise_atom demo_api
        (fun a => .ok (demo_docs a)) = some (.ok after) ∧
      before.get "actors" = some acts_b ∧ after.get "actors" = some acts_a ∧
      acts_b.size = 1 ∧ acts_a.size = 1) ∧
    (∃ changes after acts_a,
      (demo_half_owned.erase_item_atom_uuid demo_api "b").2 = .ok changes ∧
      (demo_half_owned.erase_item_atom_uuid demo_api "b").1.child_uuids = ["a"] ∧
      (demo_half_owned.erase_item_atom_uuid demo_api "b").1.serialise_atom demo_api
        (fun a => .ok (demo_docs a)) = some (.ok after) ∧
      after.get "actors" = some acts_a ∧
      acts_a.get "a" = none ∧ acts_a.size = 0) := by
  refine ⟨by decide, ⟨_, _, _, _, _, rfl, by decide, by decide, rfl, rfl, rfl, rfl,
    by decide, by decide⟩, ⟨_, _, _, rfl, by decide, rfl, rfl, rfl, by decide⟩⟩

/-! ## Reconstruction -/

theorem find_uuid_congr (cs ds : List Item) (u : Uuid)
    (h : cs.map Item.uuid = ds.map Item.uuid) : find_uuid cs u = find_uuid ds u := by
  induction cs generalizing ds with
  | nil =>
    cases ds with
    | nil => rfl
    | cons d ds => simp at h
  | cons c cs ih =>
    cases ds with
    | nil => simp at h
    | cons d ds =>
      simp only [List.map_cons, List.cons.injEq] at h
      simp only [find_uuid, h.1, ih ds h.2]

theorem set_eq_self_of_getElem {α : Type} (l : List α) (i : Nat) (x : α)
    (h : l[i]? = some x) : l.set i x = l := by
  induction l generalizing i with
  | nil => simp at h
  | cons a l ih =>
    cases i with
    | zero =>
      simp at h
      simp [h]
    | succ i =>
      simp at h
      simp [ih i h]

theorem mem_keys_map_assign (k k0 : Uuid) (v : Actor) (l : List (Uuid × Actor)) :
    k0 ∈ (map_assign k v l).map Prod.fst ↔ k0 = k ∨ k0 ∈ l.map Prod.fst := by
  induction l with
  | nil => simp [map_assign]
  | cons p l ih =>
    obtain ⟨k', v'⟩ := p
    simp only [map_assign]
    by_cases h1 : Uuid.lt k k' = true
    · rw [if_pos h1]; simp
    · rw [if_neg h1]
      by_cases h2 : k = k'
      · rw [if_pos h2]
        simp only [List.map_cons, List.mem_cons]
        rw [← h2]
        tauto
      · rw [if_neg h2]
        simp only [List.map_cons, List.mem_cons, ih]
        tauto

theorem is_child_document_iff (value : Json) (k : Uuid) :
    is_child_document value k = true ↔
      value.string_at "base" "container" "uuid" = some k ∧
      value.string_at "base" "item" "uuid" = some k ∧
      (value.string_at "base" "container" "type" = some "Track" ∨
       value.string_at "base" "container" "type" = some "Clip" ∨
       value.string_at "base" "container" "type" = some "Gap" ∨
       value.string_at "base" "container" "type" = some "Stack") := by
  simp only [is_child_document, Bool.and_eq_true, Bool.or_eq_true, beq_iff_eq]
  tauto

theorem deserialise_child (api : ItemApi) (t : StackActor) (value : Json) (k : Uuid)
    (hv : is_child_document value k = true) (hk : k ∈ t.child_uuids) :
    ∃ ty t1,
      value.string_at "base" "container" "type" = some ty ∧
      t.deserialise api value true = .done (t1, t.self + t.spawned + 1) ∧
      t1.children = t.children.set (find_uuid t.children k)
        (api.pitem ty value (t.self + t.spawned + 1)) ∧
      t1.actors_ = map_assign k (t.self + t.spawned + 1) t.actors_ := by
  obtain ⟨_, hitem, hty⟩ := (is_child_document_iff value k).mp hv
  have hlt : find_uuid t.children k < t.children.length := find_uuid_lt_of_mem _ _ hk
  have hne : ¬ find_uuid t.children k = t.children.length := by omega
  have hex : ∃ ty, value.string_at "base" "container" "type" = some ty ∧
      (ty = "Track" ∨ ty = "Clip" ∨ ty = "Gap" ∨ ty = "Stack") := by
    rcases hty with h | h | h | h
    · exact ⟨_, h, by simp⟩
    · exact ⟨_, h, by simp⟩
    · exact ⟨_, h, by simp⟩
    · exact ⟨_, h, by simp⟩
  obtain ⟨ty, hty1, hty2⟩ := hex
  cases hat : value.at3 "base" "container" "type" with
  | none => simp [Json.string_at, hat] at hty1
  | some j =>
    have hj : j.as_string = some ty := by simpa [Json.string_at, hat] using hty1
    have hcond : j.as_string = some "Track" ∨ j.as_string = some "Clip" ∨
        j.as_string = some "Gap" ∨ j.as_string = some "Stack" := by
      rw [hj]
      rcases hty2 with h | h | h | h <;> simp [h]
    refine ⟨ty,
      (({ t with spawned := t.spawned + 1 } : StackActor).add_item
          ⟨k, t.self + t.spawned + 1⟩).with_item
        ((({ t with spawned := t.spawned + 1 } : StackActor).add_item
            ⟨k, t.self + t.spawned + 1⟩).base_.item.with_children
          (t.children.set (find_uuid t.children k)
            (api.pitem ty value (t.self + t.spawned + 1)))),
      hty1, ?_, ?_, ?_⟩
    · simp only [StackActor.deserialise, hitem, hat, hcond, if_true, hj, Option.getD_some]
      simp only [StackActor.children_add_item]
      have hch : ({ t with spawned := t.spawned + 1 } : StackActor).children = t.children := rfl
      rw [hch, if_neg hne]
      rw [hj] at hcond
      rw [if_pos hcond]
    · rw [StackActor.children_with_item, Item.children_with_children]
    · rfl

theorem deserialise_all_children (api : ItemApi) (s : StackActor) (docs : Actor → Json)
    (hsync : ∀ k ∈ s.owned_uuids, k ∈ s.child_uuids)
    (hdoc : ∀ p ∈ s.actors_, is_child_document (docs p.2) p.1 = true)
    (hpitem : ∀ p ∈ s.actors_, ∀ ty a,
      (docs p.2).string_at "base" "container" "type" = some ty →
      (api.pitem ty (docs p.2) a).uuid = p.1 ∧
      ∀ c, s.children[find_uuid s.children p.1]? = some c →
        (api.pitem ty (docs p.2) a).item_type = c.item_type)
    (vals : List Json) (t : StackActor)
    (hvals : ∀ v ∈ vals, ∃ p ∈ s.actors_, v = docs p.2)
    (hU : t.child_uuids = s.child_uuids) (hK : t.child_kinds = s.child_kinds) :
    ∃ t', StackActor.deserialise_all api vals t = some t' ∧
      t'.child_uuids = s.child_uuids ∧ t'.child_kinds = s.child_kinds ∧
      ∀ k, k ∈ t'.owned_uuids ↔
        (k ∈ t.owned_uuids ∨ ∃ v ∈ vals, v.string_at "base" "item" "uuid" = some k) := by
  induction vals generalizing t with
  | nil => exact ⟨t, rfl, hU, hK, by simp⟩
  | cons v vals ih =>
    obtain ⟨p, hp, hv⟩ := hvals v (by simp)
    subst hv
    have hpk : p.1 ∈ s.child_uuids := hsync p.1 (List.mem_map_of_mem _ hp)
    have hk : p.1 ∈ t.child_uuids := by rw [hU]; exact hpk
    obtain ⟨ty, t1, hty, hdes, hch, hact⟩ :=
      deserialise_child api t (docs p.2) p.1 (hdoc p hp) hk
    obtain ⟨hiu, hik⟩ := hpitem p hp ty (t.self + t.spawned + 1) hty
    have hidx : find_uuid t.children p.1 = find_uuid s.children p.1 :=
      find_uuid_congr _ _ _ hU
    have hlt : find_uuid s.children p.1 < s.children.length :=
      find_uuid_lt_of_mem _ _ hpk
    have hget : s.children[find_uuid s.children p.1]?
        = some (s.children[find_uuid s.children p.1]) := List.getElem?_eq_getElem hlt
    have hcu := find_uuid_get s.children p.1 _ hget
    have hck := hik _ hget
    have hU1 : t1.child_uuids = s.child_uuids := by
      simp only [StackActor.child_uuids, hch, List.map_set, hiu, hidx]
      have hU' : t.children.map Item.uuid = s.children.map Item.uuid := hU
      rw [hU']
      apply set_eq_self_of_getElem
      rw [List.getElem?_map, hget, Option.map_some', hcu]
    have hK1 : t1.child_kinds = s.child_kinds := by
      simp only [StackActor.child_kinds, hch, List.map_set, hck, hidx]
      have hK' : t.children.map Item.item_type = s.children.map Item.item_type := hK
      rw [hK']
      apply set_eq_self_of_getElem
      rw [List.getElem?_map, hget, Option.map_some']
    obtain ⟨t', hall, hU2, hK2, hown⟩ :=
      ih t1 (fun w hw => hvals w (by simp [hw])) hU1 hK1
    refine ⟨t', ?_, hU2, hK2, ?_⟩
    · simp only [StackActor.deserialise_all, hdes]
      exact hall
    · intro k
      have hitem := ((is_child_document_iff (docs p.2) p.1).mp (hdoc p hp)).2.1
      rw [hown k]
      simp only [StackActor.owned_uuids, hact, mem_keys_map_assign, List.mem_cons,
        exists_eq_or_imp, hitem, Option.some.injEq]
      constructor
      · rintro ((h | h) | h)
        · right; left; exact h.symm
        · left; exact h
        · right; right; exact h
      · rintro (h | h | h)
        · left; right; exact h
        · left; left; exact h.symm
        · right; exact h

theorem actors_document_items (docs : Actor → Json) (m : List (Uuid × Actor)) :
    (∀ v ∈ (actors_document docs m).items, ∃ p ∈ m, v = docs p.2) ∧
    (∀ k ∈ m.map Prod.fst, ∃ p ∈ m, p.1 = k ∧ docs p.2 ∈ (actors_document docs m).items) := by
  cases m with
  | nil => simp [actors_document, Json.items]
  | cons q m =>
    simp only [actors_document, List.isEmpty_cons, Bool.false_eq_true, if_false, Json.items]
    constructor
    · intro v hv
      obtain ⟨kv, hkv, hsnd⟩ := List.mem_map.mp hv
      rcases mem_stored_members docs (q :: m) [] kv hkv with ⟨p, hp, hq⟩ | h
      · exact ⟨p, hp, by rw [← hsnd, hq]⟩
      · simp at h
    · intro k hk
      have hmem : k ∈ (stored_members docs (q :: m) []).map Prod.fst :=
        (mem_keys_stored_members docs (q :: m) [] k).mpr (Or.inl hk)
      obtain ⟨kv, hkv, hfst⟩ := List.mem_map.mp hmem
      rcases mem_stored_members docs (q :: m) [] kv hkv with ⟨p, hp, hq⟩ | h
      · refine ⟨p, hp, ?_, ?_⟩
        · rw [← hfst, hq]
        · exact List.mem_map.mpr ⟨kv, hkv, by rw [hq]⟩
      · simp at h

/-- Instance of `remove_present`: track `b` removed from four tracks. -/
theorem remove_present_witness :
    "b" ∈ demo_four.child_uuids ∧
    ∃ item changes,
      demo_four.children[find_uuid demo_four.children "b"]? = some item ∧ item.uuid = "b" ∧
      (∀ j c, j < find_uuid demo_four.children "b" → demo_four.children[j]? = some c →
        c.uuid ≠ "b") ∧
      (demo_four.remove_item_atom_uuid demo_api "b").2 = .ok (changes, item) ∧
      (demo_four.remove_item_atom_uuid demo_api "b").1.published
        = demo_four.published ++ [(changes, false)] ∧
      (demo_four.remove_item_atom_uuid demo_api "b").1.children
        = demo_four.children.eraseIdx (find_uuid demo_four.children "b") ∧
      "b" ∉ (demo_four.remove_item_atom_uuid demo_api "b").1.owned_uuids ∧
      (demo_four.remove_item_atom_uuid demo_api "b").1.exits = demo_four.exits :=
  ⟨by decide, remove_present demo_api demo_four "b" (by decide)⟩

/-- Instance of `erase_is_remove_then_exit`: track `b` erased from four tracks. -/
theorem erase_is_remove_then_exit_witness :
    demo_four.child_uuids.Nodup ∧ "b" ∈ demo_four.child_uuids ∧
    demo_four.owned_uuids.Nodup ∧
    (∀ k, k ∈ demo_four.owned_uuids ↔ k ∈ demo_four.child_uuids) ∧
    (∀ p ∈ demo_four.actors_,
      (demo_docs p.2).string_at "base" "container" "uuid" = some p.1) ∧
    (demo_four.erase_item_atom_uuid demo_api "b").1.exits = [12] ∧
    (demo_four.erase_item_atom_uuid demo_api "b").1.owned_uuids = ["a", "c", "d"] ∧
    (demo_four.erase_item_atom_uuid demo_api "b").1.child_uuids = ["a", "c", "d"] ∧
    ∃ item changes before after acts_b acts_a,
      demo_four.children[find_uuid demo_four.children "b"]? = some item ∧
      item.uuid = "b" ∧
      (demo_four.remove_item_atom_uuid demo_api "b").2 = .ok (changes, item) ∧
      (demo_four.erase_item_atom_uuid demo_api "b").2 = .ok changes ∧
      (demo_four.erase_item_atom_uuid demo_api "b").1.exits
        = demo_four.exits ++ [item.actor] ∧
      demo_four.serialise_atom demo_api (fun a => .ok (demo_docs a)) = some (.ok before) ∧
      (demo_four.erase_item_atom_uuid demo_api "b").1.serialise_atom demo_api
        (fun a => .ok (demo_docs a)) = some (.ok after) ∧
      before.get "actors" = some acts_b ∧ after.get "actors" = some acts_a ∧
      (∀ k, (∃ j, acts_a.get k = some j) ↔
        k ∈ (demo_four.erase_item_atom_uuid demo_api "b").1.child_uuids) ∧
      acts_a.size = (demo_four.erase_item_atom_uuid demo_api "b").1.children.length ∧
      acts_a.get "b" = none ∧
      acts_a.size + 1 = acts_b.size :=
  ⟨by decide, by decide, by decide,
    fun k => by rw [(by decide : demo_four.owned_uuids = demo_four.child_uuids)],
    by decide, by decide, by decide, by decide,
    (erase_is_remove_then_exit demo_api demo_four "b" demo_docs).1 (by decide) (by decide)
      (by decide)
      (fun k => by rw [(by decide : demo_four.owned_uuids = demo_four.child_uuids)])
      (by decide)⟩

/-- Instance of `serialise_shape`: four owned tracks. -/
theorem serialise_shape_witness :
    demo_four.actors_ ≠ [] ∧ demo_four.owned_uuids.Nodup ∧
    (∀ p ∈ demo_four.actors_,
      (demo_docs p.2).string_at "base" "container" "uuid" = some p.1) ∧
    ∃ jsn actors,
      demo_four.serialise_atom demo_api (fun a => .ok (demo_docs a)) = some (.ok jsn) ∧
      jsn.get "base" = some (demo_api.serialise demo_four.base_) ∧
      jsn.get "actors" = some actors ∧
      (∀ p ∈ demo_four.actors_, actors.get p.1 = some (demo_docs p.2)) ∧
      actors.size = demo_four.actors_.length ∧
      0 < actors.size :=
  ⟨by decide, by decide, by decide,
    serialise_shape demo_api demo_four demo_docs (by decide) (by decide) (by decide)⟩

/-- C11 (insert before an unknown identity), the handler run on four tracks `a b c d`:
the track `e` (actor 15) passes the type check and is to be inserted before the unknown
identity `zz`.  The handler answers "Invalid uuid" and leaves the children alone, but
the ownership map has gained the entry for `e` and actor 15 is monitored. -/
theorem insert_before_unknown_keeps_ownership :
    demo_api.valid_child demo_four.base_.item (leaf "e" .IT_TRACK 15) = true ∧
    "zz" ∉ demo_four.child_uuids ∧
    (demo_four.insert_item_atom_uuid demo_api "zz" ⟨"e", 15⟩ (leaf "e" .IT_TRACK 15)
      (.ok (leaf "e" .IT_TRACK 15))).2 = .error "Invalid uuid" ∧
    (demo_four.insert_item_atom_uuid demo_api "zz" ⟨"e", 15⟩ (leaf "e" .IT_TRACK 15)
      (.ok (leaf "e" .IT_TRACK 15))).1.child_uuids = ["a", "b", "c", "d"] ∧
    demo_four.owned_uuids = ["a", "b", "c", "d"] ∧
    (demo_four.insert_item_atom_uuid demo_api "zz" ⟨"e", 15⟩ (leaf "e" .IT_TRACK 15)
      (.ok (leaf "e" .IT_TRACK 15))).1.owned_uuids = ["a", "b", "c", "d", "e"] ∧
    demo_four.monitored = [11, 12, 13, 14] ∧
    (demo_four.insert_item_atom_uuid demo_api "zz" ⟨"e", 15⟩ (leaf "e" .IT_TRACK 15)
      (.ok (leaf "e" .IT_TRACK 15))).1.monitored = [11, 12, 13, 14, 15] := by
  refine ⟨by decide, by decide, by rfl, by decide, by decide, by decide, by decide, by decide⟩

theorem insert_position_past_end (index : Int) (rest : List Item) (i : Int) (pos : Nat)
    (h : ∀ j : Nat, j < rest.length → i + j ≠ index) :
    insert_position index i rest pos = pos + rest.length := by
  induction rest generalizing i pos with
  | nil => simp [insert_position]
  | cons c rest ih =>
    have h0 : i ≠ index := by
      have := h 0 (by simp)
      simpa using this
    simp only [insert_position, h0, if_false, List.length_cons]
    rw [ih (i + 1) (pos + 1) (by
      intro j hj
      have := h (j + 1) (by simp only [List.length_cons]; omega)
      push_cast at this
      omega)]
    omega

/-- C12 as stated fails: on four tracks `a b c d` an insert at index 7, and one at
index -1, of a track that passes the type check is not rejected; the handler delivers a
delta and the track stands at the end of the children. -/
theorem insert_out_of_range_is_accepted :
    ((demo_four.insert_item_atom_index demo_api 7 ⟨"e", 15⟩ (leaf "e" .IT_TRACK 15)
      (.ok (leaf "e" .IT_TRACK 15))).2.toOption.isSome = true ∧
     (demo_four.insert_item_atom_index demo_api 7 ⟨"e", 15⟩ (leaf "e" .IT_TRACK 15)
      (.ok (leaf "e" .IT_TRACK 15))).1.child_uuids = ["a", "b", "c", "d", "e"]) ∧
    ((demo_four.insert_item_atom_index demo_api (-1) ⟨"e", 15⟩ (leaf "e" .IT_TRACK 15)
      (.ok (leaf "e" .IT_TRACK 15))).2.toOption.isSome = true ∧
     (demo_four.insert_item_atom_index demo_api (-1) ⟨"e", 15⟩ (leaf "e" .IT_TRACK 15)
      (.ok (leaf "e" .IT_TRACK 15))).1.child_uuids = ["a", "b", "c", "d", "e"]) := by
  refine ⟨⟨by decide, by decide⟩, ⟨by decide, by decide⟩⟩

/-- C12 amended (insert at a non-existent index): for a stack with `n` children and a
child that passes the type check, the insert-by-index handler with `index < 0` or
`index > n` does not fail: once the child's actor has answered the re-acquire request
it delivers a delta, and the child's Item is appended at the end of the children, which
otherwise stay as they were. -/
theorem insert_out_of_range_appends (api : ItemApi) (s : StackActor) (index : Int)
    (ua : UuidActor) (item child : Item)
    (hv : api.valid_child s.base_.item item = true)
    (hr : index < 0 ∨ (s.children.length : Int) < index) :
    ∃ changes,
      (s.insert_item_atom_index api index ua item (.ok child)).2 = .ok changes ∧
      (s.insert_item_atom_index api index ua item (.ok child)).1.children
        = s.children ++ [child] := by
  have hpos : insert_position index 0 s.children 0 = s.children.length := by
    rw [insert_position_past_end index s.children 0 0 (by intro j hj; omega)]
    simp
  have hreply : ∃ changes,
      (s.insert_item_atom_index api index ua item (.ok child)).2 = .ok changes := by
    simp [StackActor.insert_item_atom_index, hv]
  obtain ⟨changes, hreply⟩ := hreply
  refine ⟨changes, hreply, ?_⟩
  have hbase : (s.add_item ua).base_.item.children = s.children := rfl
  simp [StackActor.insert_item_atom_index, hv, hpos, Item.insert]
  rw [hbase]
  simp [StackActor.children]

/-- Instance of `insert_out_of_range_appends`: a track inserted at index 7 of four
tracks. -/
theorem insert_out_of_range_appends_witness :
    demo_api.valid_child demo_four.base_.item (leaf "e" .IT_TRACK 15) = true ∧
    ((7 : Int) < 0 ∨ (demo_four.children.length : Int) < 7) ∧
    ∃ changes,
      (demo_four.insert_item_atom_index demo_api 7 ⟨"e", 15⟩ (leaf "e" .IT_TRACK 15)
        (.ok (leaf "e" .IT_TRACK 15))).2 = .ok changes ∧
      (demo_four.insert_item_atom_index demo_api 7 ⟨"e", 15⟩ (leaf "e" .IT_TRACK 15)
        (.ok (leaf "e" .IT_TRACK 15))).1.children
        = demo_four.children ++ [leaf "e" .IT_TRACK 15] :=
  ⟨by decide, by decide,
    insert_out_of_range_appends demo_api demo_four 7 ⟨"e", 15⟩ (leaf "e" .IT_TRACK 15)
      (leaf "e" .IT_TRACK 15) (by decide) (by decide)⟩

/-! ## Move and remove: ranges and indices that do not exist -/

/-- C13 (move range check), the handler run on four tracks `a b c d`: moving a run of 3
children that starts at `c` (position 2, so the run would end at position 5 of 4) to the
end is not answered with an error: the end of the run is computed with `std::advance`
beyond `end()`, which is undefined.  A run of 2 from `b` is moved as asked. -/
theorem move_run_beyond_end_is_undefined :
    find_uuid demo_four.children "c" = 2 ∧ demo_four.children.length = 4 ∧
    demo_four.move_item_atom_uuid demo_api "c" 3 Uuid.null = none ∧
    (demo_four.move_item_atom_uuid demo_api "b" 2 Uuid.null).map (fun r => r.1.child_uuids)
      = some ["a", "d", "b", "c"] := by
  refine ⟨by decide, by decide, by rfl, by decide⟩

/-- C14 (remove and erase by index), the handlers run on four tracks `a b c d`: for the
indices 6 and -1 the iterator is advanced out of the children before it is compared
with `end()`, which is undefined, so no error is guaranteed; index 4 is answered with
"Invalid index" and index 1 is handled as the remove (erase) of identity `b`. -/
theorem remove_by_index_unchecked :
    (demo_four.remove_item_atom_index demo_api 6 = none ∧
     demo_four.remove_item_atom_index demo_api (-1) = none ∧
     demo_four.erase_item_atom_index demo_api 6 = none ∧
     demo_four.erase_item_atom_index demo_api (-1) = none) ∧
    (demo_four.remove_item_atom_index demo_api 4
        = some (demo_four, .error "Invalid index") ∧
     demo_four.erase_item_atom_index demo_api 4
        = some (demo_four, .error "Invalid index")) ∧
    (demo_four.remove_item_atom_index demo_api 1
        = some (demo_four.remove_item_atom_uuid demo_api "b") ∧
     demo_four.erase_item_atom_index demo_api 1
        = some (demo_four.erase_item_atom_uuid demo_api "b")) := by
  refine ⟨⟨by rfl, by rfl, by rfl, by rfl⟩, ⟨by rfl, by rfl⟩, ⟨by rfl, by rfl⟩⟩

/-! ## Item by index -/

/-- C20 (get child by index): for a stack with `n` children (fewer than `2^63`, as any
list in memory) and an `int` index, the item-by-index handler never runs into undefined
behaviour: it returns the child at position `index` when `0 ≤ index < n` and the error
"Invalid index" otherwise, in particular for every negative index, which the cast to
`size_t` turns into a value of at least `n`.  The handler has no access to the state
other than reading it. -/
theorem item_by_index_bounds (s : StackActor) (index : Int)
    (hint : -2 ^ 31 ≤ index ∧ index < 2 ^ 31) (hn : s.children.length < 2 ^ 63) :
    (index < 0 → s.children.length ≤ size_t_of_int index) ∧
    (0 ≤ index ∧ index < s.children.length →
      ∃ item, s.children[index.toNat]? = some item ∧
        s.item_atom_index index = some (.ok item)) ∧
    (¬ (0 ≤ index ∧ index < s.children.length) →
      s.item_atom_index index = some (.error "Invalid index")) := by
  have hneg : index < 0 → s.children.length ≤ size_t_of_int index := by
    intro h
    simp only [size_t_of_int]
    omega
  refine ⟨hneg, ?_, ?_⟩
  · rintro ⟨h0, h1⟩
    have hlt : index.toNat < s.children.length := by omega
    have hcast : ¬ size_t_of_int index ≥ s.base_.item.size := by
      have : size_t_of_int index = index.toNat := by
        simp only [size_t_of_int]
        omega
      rw [this]
      simp only [Item.size, ge_iff_le, not_le]
      exact hlt
    have hadv : advance s.children.length 0 index = some index.toNat := by
      simp only [advance]
      rw [if_pos (by constructor <;> (push_cast; omega))]
      simp
    refine ⟨s.children[index.toNat], List.getElem?_eq_getElem hlt, ?_⟩
    simp only [StackActor.item_atom_index, if_neg hcast, hadv, List.getElem?_eq_getElem hlt]
  · intro h
    have hcast : size_t_of_int index ≥ s.base_.item.size := by
      by_cases hi : index < 0
      · exact hneg hi
      · have : size_t_of_int index = index.toNat := by
          simp only [size_t_of_int]
          omega
        rw [this]
        simp only [Item.size, ge_iff_le]
        have hlen : (s.base_.item.children.length : Int) = s.children.length := rfl
        omega
    simp only [StackActor.item_atom_index, if_pos hcast]

/-- Instance of `item_by_index_bounds`: index 2 of four tracks. -/
theorem item_by_index_bounds_witness :
    (-(2 : Int) ^ 31 ≤ 2 ∧ (2 : Int) < 2 ^ 31) ∧ demo_four.children.length < 2 ^ 63 ∧
    (demo_four.item_atom_index 2).map (fun r => r.toOption.map Item.uuid) = some (some "c") ∧
    (demo_four.item_atom_index (-1)).map (fun r => r.toOption.map Item.uuid) = some none ∧
    ∃ item, demo_four.children[(2 : Int).toNat]? = some item ∧
      demo_four.item_atom_index 2 = some (.ok item) :=
  ⟨by decide, by decide, by decide, by decide,
    (item_by_index_bounds demo_four 2 (by decide) (by decide)).2.1 (by decide)⟩

/-! ## Child death -/

theorem map_find_actor_eq_length (m : List (Uuid × Actor)) (a : Actor) :
    map_find_actor m a = m.length ↔ a ∉ map_value_to_vec m := by
  induction m with
  | nil => simp [map_find_actor, map_value_to_vec]
  | cons p m ih =>
    simp only [map_find_actor, map_value_to_vec, List.map_cons, List.mem_cons,
      List.length_cons, not_or]
    by_cases h : a = p.2
    · simp [h]
    · simp only [h, if_false, Nat.add_right_cancel_iff, not_false_eq_true, true_and]
      exact ih

theorem map_find_actor_le (m : List (Uuid × Actor)) (a : Actor) :
    map_find_actor m a ≤ m.length := by
  induction m with
  | nil => simp [map_find_actor]
  | cons p m ih =>
    simp only [map_find_actor]
    split <;> simp [ih]

theorem map_find_actor_get (m : List (Uuid × Actor)) (a : Actor) (p : Uuid × Actor)
    (h : m[map_find_actor m a]? = some p) : p.2 = a := by
  induction m with
  | nil => simp [map_find_actor] at h
  | cons q m ih =>
    simp only [map_find_actor] at h
    by_cases hq : a = q.2
    · simp [hq] at h
      rw [← h]; exact hq.symm
    · simp [hq] at h
      exact ih h

theorem not_mem_eraseIdx_map_find_actor (m : List (Uuid × Actor)) (a : Actor)
    (hd : (map_value_to_vec m).Nodup) :
    a ∉ map_value_to_vec (m.eraseIdx (map_find_actor m a)) := by
  induction m with
  | nil => simp [map_value_to_vec]
  | cons q m ih =>
    simp only [map_value_to_vec, List.map_cons, List.nodup_cons] at hd
    simp only [map_find_actor]
    by_cases hq : a = q.2
    · simp only [hq, if_true, List.eraseIdx_cons_zero]
      exact hd.1
    · rw [if_neg hq, List.eraseIdx_cons_succ]
      intro hmem
      simp only [map_value_to_vec, List.map_cons, List.mem_cons] at hmem
      rcases hmem with h | h
      · exact hq h
      · exact ih hd.2 h

theorem find_actor_addr_eq_length (cs : List Item) (a : Actor) :
    find_actor_addr cs a = cs.length ↔ a ∉ cs.map Item.actor := by
  induction cs with
  | nil => simp [find_actor_addr]
  | cons c cs ih =>
    simp only [find_actor_addr, List.map_cons, List.mem_cons, List.length_cons, not_or]
    by_cases h : c.actor = a
    · simp [h]
    · have h' : ¬ a = c.actor := fun e => h e.symm
      simp only [h, if_false, Nat.add_right_cancel_iff, h', not_false_eq_true, true_and]
      exact ih

theorem not_mem_eraseIdx_find_actor_addr (cs : List Item) (a : Actor)
    (hd : (cs.map Item.actor).Nodup) :
    a ∉ (cs.eraseIdx (find_actor_addr cs a)).map Item.actor := by
  induction cs with
  | nil => simp
  | cons c cs ih =>
    simp only [List.map_cons, List.nodup_cons] at hd
    simp only [find_actor_addr]
    by_cases hc : c.actor = a
    · simp only [hc, if_true, List.eraseIdx_cons_zero]
      rw [← hc]; exact hd.1
    · simp only [hc, if_false, List.eraseIdx_cons_succ, List.map_cons, List.mem_cons, not_or]
      exact ⟨fun h => hc h.symm, ih hd.2⟩

theorem down_handler_found (api : ItemApi) (s : StackActor) (source : Actor)
    (p : Uuid × Actor) (hget : s.actors_[map_find_actor s.actors_ source]? = some p)
    (hne : find_actor_addr s.children source ≠ s.children.length) :
    s.down_handler api source
      = (({ s.demonitor p.2 with
            actors_ := s.actors_.eraseIdx (map_find_actor s.actors_ source) }
          : StackActor).refresh_and_send api
          (s.base_.item.erase (find_actor_addr s.children source))
          (api.erase_changes s.base_.item (find_actor_addr s.children source))).1 := by
  have hne' : find_actor_addr s.base_.item.children source ≠ s.base_.item.children.length :=
    hne
  simp [StackActor.down_handler, hget, StackActor.demonitor, StackActor.children, hne']

/-- C16 (child-event cascade), the handler run on four tracks: a child event with the
single record `child` whose merge succeeds and whose refresh reports the secondary
change `refresh` is republished as `child` followed by `refresh`; the secondary changes
are not in front of the event, as they are wherever else the actor combines them with
its own changes. -/
theorem child_event_update_comes_first :
    ∃ t, demo_four.event_atom_item demo_api_refresh demo_api2
        (.arr [demo_change "child" 1 "a"]) true = some t ∧
      t.published = [(.arr [demo_change "child" 1 "a", demo_change "refresh" 0 "s"], true)] ∧
      (Json.arr [demo_change "child" 1 "a", demo_change "refresh" 0 "s"]
        ≠ Json.arr [demo_change "refresh" 0 "s", demo_change "child" 1 "a"]) := by
  refine ⟨_, rfl, rfl, ?_⟩
  intro h
  simp [demo_change] at h

/-- What the child-event handler publishes: for a child event `(update, hidden)` exactly
one event is republished, with the same hidden flag; if merging `update` (an array of
change records) into the local Item succeeds and the refresh produces non-null
secondary changes, the republished document is the records of `update` followed by the
secondary changes; if the merge fails or the refresh produces null, the republished
document is exactly `update`. -/
theorem child_event_republished (api : ItemApi) (api2 : ItemApi2) (s : StackActor)
    (hidden : Bool) :
    (∀ entries more,
      (api2.update s.base_.item (.arr entries)).2 = true →
      (Item.refresh api (api2.update s.base_.item (.arr entries)).1).2 = some more →
      ∃ t, s.event_atom_item api api2 (.arr entries) hidden = some t ∧
        t.published = s.published ++ [(.arr (entries ++ more), hidden)]) ∧
    (∀ update,
      ((api2.update s.base_.item update).2 = false ∨
        (Item.refresh api (api2.update s.base_.item update).1).2 = none) →
      ∃ t, s.event_atom_item api api2 update hidden = some t ∧
        t.published = s.published ++ [(update, hidden)]) := by
  constructor
  · intro entries more hok hmore
    refine ⟨(s.with_item (Item.refresh api (api2.update s.base_.item (.arr entries)).1).1).send_event
      (.arr (insert_begin more entries)) hidden, ?_, ?_⟩
    · simp only [StackActor.event_atom_item, hok, if_true, hmore]
    · simp [StackActor.send_event, StackActor.with_item, insert_begin]
  · intro update h
    by_cases hok : (api2.update s.base_.item update).2 = true
    · have hnone : (Item.refresh api (api2.update s.base_.item update).1).2 = none := by
        rcases h with h | h
        · rw [hok] at h; cases h
        · exact h
      refine ⟨(s.with_item (Item.refresh api (api2.update s.base_.item update).1).1).send_event
        update hidden, ?_, ?_⟩
      · simp only [StackActor.event_atom_item, hok, if_true, hnone]
      · simp [StackActor.send_event, StackActor.with_item]
    · refine ⟨(s.with_item (api2.update s.base_.item update).1).send_event update hidden,
        ?_, ?_⟩
      · simp only [StackActor.event_atom_item, hok, Bool.false_eq_true, if_false]
      · simp [StackActor.send_event, StackActor.with_item]

/-- Instance of `child_event_republished`: a merge with secondary changes and a merge
without. -/
theorem child_event_republished_witness :
    ((demo_api2.update demo_four.base_.item (.arr [demo_change "child" 1 "a"])).2 = true ∧
      ∃ t, demo_four.event_atom_item demo_api_refresh demo_api2
          (.arr [demo_change "child" 1 "a"]) true = some t ∧
        t.published = demo_four.published ++
          [(.arr ([demo_change "child" 1 "a"] ++ [demo_change "refresh" 0 "s"]), true)]) ∧
    (∃ t, demo_four.event_atom_item demo_api demo_api2 (.str "x") false = some t ∧
        t.published = demo_four.published ++ [(.str "x", false)]) :=
  ⟨⟨by decide,
      (child_event_republished demo_api_refresh demo_api2 demo_four true).1
        [demo_change "child" 1 "a"] [demo_change "refresh" 0 "s"] (by decide) (by rfl)⟩,
    (child_event_republished demo_api demo_api2 demo_four false).2 (.str "x")
      (Or.inr (by rfl))⟩

/-! ## Broadcast of mutations -/

theorem refresh_and_send_not_null (api : ItemApi) (s : StackActor) (changed : Item)
    (changes : List Json) : (s.refresh_and_send api changed changes).2.is_null = false := rfl

theorem returned_deltas_cons (r : Except error JsonStore) (rs : List (Except error JsonStore)) :
    returned_deltas (r :: rs) = returned_deltas [r] ++ returned_deltas rs := by
  cases r with
  | error e => simp [returned_deltas]
  | ok jsn =>
    simp only [returned_deltas]
    split <;> simp

theorem returned_deltas_ok (jsn : JsonStore) :
    returned_deltas [.ok jsn] = if jsn.is_null then [] else [(jsn, false)] := by
  simp only [returned_deltas]

theorem published_add_item (s : StackActor) (ua : UuidActor) :
    (s.add_item ua).published = s.published := rfl

theorem setter_published (s : StackActor) (r : Item × Json) :
    (if !r.2.is_null then ((s.with_item r.1).send_event r.2 false, r.2)
      else (s.with_item r.1, r.2)).1.published
      = s.published ++ returned_deltas
          [.ok (if !r.2.is_null then ((s.with_item r.1).send_event r.2 false, r.2)
            else (s.with_item r.1, r.2)).2] := by
  cases h : r.2.is_null with
  | true => simp [h, returned_deltas, StackActor.with_item]
  | false => simp [h, returned_deltas, StackActor.with_item, StackActor.send_event]

theorem insert_index_published (api : ItemApi) (s : StackActor) (index : Int)
    (ua : UuidActor) (item : Item) (reacquired : Except error Item) :
    (s.insert_item_atom_index api index ua item reacquired).1.published
      = s.published ++ returned_deltas [(s.insert_item_atom_index api index ua item reacquired).2] := by
  unfold StackActor.insert_item_atom_index
  split
  · simp [returned_deltas]
  · cases reacquired with
    | error e => simp [returned_deltas, published_add_item]
    | ok child =>
      simp only [StackActor.published_refresh_and_send, returned_deltas_ok,
        refresh_and_send_not_null, published_add_item]
      simp

theorem insert_uuid_published (api : ItemApi) (s : StackActor) (before_uuid : Uuid)
    (ua : UuidActor) (item : Item) (reacquired : Except error Item) :
    (s.insert_item_atom_uuid api before_uuid ua item reacquired).1.published
      = s.published ++ returned_deltas [(s.insert_item_atom_uuid api before_uuid ua item reacquired).2] := by
  unfold StackActor.insert_item_atom_uuid
  split
  · simp [returned_deltas]
  · cases reacquired with
    | error e => simp [returned_deltas, published_add_item]
    | ok child =>
      simp only
      split
      · simp only [StackActor.published_refresh_and_send, returned_deltas_ok,
          refresh_and_send_not_null, published_add_item]
        simp
      · split
        · simp [returned_deltas, published_add_item]
        · simp only [StackActor.published_refresh_and_send, returned_deltas_ok,
            refresh_and_send_not_null, published_add_item]
          simp

theorem move_published (api : ItemApi) (s : StackActor) (src_uuid : Uuid) (count : Int)
    (before_uuid : Uuid) (r : StackActor × Except error JsonStore)
    (h : s.move_item_atom_uuid api src_uuid count before_uuid = some r) :
    r.1.published = s.published ++ returned_deltas [r.2] := by
  unfold StackActor.move_item_atom_uuid at h
  simp only at h
  split at h
  · cases h; simp [returned_deltas]
  · split at h
    · cases h
    · split at h
      · cases h; simp [returned_deltas]
      · split at h
        · split at h
          · cases h
          · split at h
            · cases h
            · cases h
              simp only [StackActor.published_refresh_and_send, returned_deltas_ok,
                refresh_and_send_not_null]
              simp
        · cases h; simp [returned_deltas, Json.is_null]

theorem remove_published (api : ItemApi) (s : StackActor) (uuid : Uuid) :
    (s.remove_item_atom_uuid api uuid).1.published
      = s.published ++ returned_deltas
          [match (s.remove_item_atom_uuid api uuid).2 with
            | .ok hist_item => .ok hist_item.1
            | .error err => .error err] := by
  unfold StackActor.remove_item_atom_uuid
  simp only
  split
  · simp [returned_deltas]
  · simp only [StackActor.published_refresh_and_send, returned_deltas_ok,
      refresh_and_send_not_null]
    simp [StackActor.demonitor]

theorem handle_published (api : ItemApi) (api2 : ItemApi2) (s : StackActor) (m : Mutation)
    (r : StackActor × Except error JsonStore) (h : s.handle api api2 m = some r) :
    r.1.published = s.published ++ returned_deltas [r.2] := by
  cases m with
  | set_enabled value =>
    simp only [StackActor.handle, Option.some.injEq] at h
    rw [← h]
    exact setter_published s (api2.set_enabled s.base_.item value)
  | set_active_range fr =>
    simp only [StackActor.handle, Option.some.injEq] at h
    rw [← h]
    exact setter_published s (api2.set_active_range s.base_.item fr)
  | set_available_range fr =>
    simp only [StackActor.handle, Option.some.injEq] at h
    rw [← h]
    exact setter_published s (api2.set_available_range s.base_.item fr)
  | insert_index index ua item reacquired =>
    simp only [StackActor.handle, Option.some.injEq] at h
    rw [← h]
    exact insert_index_published api s index ua item reacquired
  | insert_uuid before_uuid ua item reacquired =>
    simp only [StackActor.handle, Option.some.injEq] at h
    rw [← h]
    exact insert_uuid_published api s before_uuid ua item reacquired
  | move src_uuid count before_uuid =>
    simp only [StackActor.handle] at h
    exact move_published api s src_uuid count before_uuid r h
  | remove uuid =>
    have hp := remove_published api s uuid
    simp only [StackActor.handle] at h
    cases hr : s.remove_item_atom_uuid api uuid with
    | mk s1 res =>
      rw [hr] at h hp
      cases res with
      | ok hist_item =>
        simp only [Option.some.injEq] at h
        rw [← h]
        exact hp
      | error err =>
        simp only [Option.some.injEq] at h
        rw [← h]
        exact hp

/-- C15 as stated fails: a stack of four enabled tracks handles two mutation requests,
a move of `a` with count 0 and a `set_enabled(true)`; both callers get the null
document back and nothing is published (0 deltas for N = 2). -/
theorem two_mutations_publish_nothing :
    ∃ t replies,
      StackActor.handle_all demo_api demo_api2
        [.move "a" 0 Uuid.null, .set_enabled true] demo_four = some (t, replies) ∧
      replies.length = 2 ∧
      replies = [.ok .null, .ok .null] ∧
      t.published = [] := by
  exact ⟨_, _, rfl, rfl, rfl, rfl⟩

/-- C15 amended (broadcast ordering): when a stack handles a sequence of N mutation
requests (set_enabled, set_active_range, set_available_range, insert, move, remove) in
order, every caller gets an answer and the events the stack publishes are, in the order
of the requests, exactly the non-null deltas returned to the callers, each not hidden;
a request that is answered with an error or with the null document publishes nothing,
so at most N deltas are published.  A sequence without move requests is always handled
to the end. -/
theorem handle_all_published (api : ItemApi) (api2 : ItemApi2) (ms : List Mutation)
    (s : StackActor) :
    (∀ r, StackActor.handle_all api api2 ms s = some r →
      r.2.length = ms.length ∧
      r.1.published = s.published ++ returned_deltas r.2 ∧
      (returned_deltas r.2).length ≤ ms.length) ∧
    ((∀ m ∈ ms, ∀ src count before, m ≠ Mutation.move src count before) →
      ∃ r, StackActor.handle_all api api2 ms s = some r) := by
  induction ms generalizing s with
  | nil =>
    refine ⟨?_, fun _ => ⟨_, rfl⟩⟩
    intro r h
    simp only [StackActor.handle_all, Option.some.injEq] at h
    rw [← h]
    simp [returned_deltas]
  | cons m ms ih =>
    constructor
    · intro r h
      simp only [StackActor.handle_all] at h
      cases h1 : s.handle api api2 m with
      | none => simp [h1] at h
      | some r1 =>
        simp only [h1] at h
        cases h2 : StackActor.handle_all api api2 ms r1.1 with
        | none => simp [h2] at h
        | some rs =>
          simp only [h2, Option.some.injEq] at h
          obtain ⟨hlen, hpub, hle⟩ := (ih r1.1).1 rs h2
          have hp1 := handle_published api api2 s m r1 h1
          have hone : (returned_deltas [r1.2]).length ≤ 1 := by
            cases r1.2 with
            | error e => simp [returned_deltas]
            | ok jsn =>
              simp only [returned_deltas]
              split <;> simp
          rw [← h]
          refine ⟨by simp [hlen], ?_, ?_⟩
          · simp only
            rw [hpub, hp1, returned_deltas_cons r1.2 rs.2, List.append_assoc]
          · simp only
            rw [returned_deltas_cons r1.2 rs.2, List.length_append, List.length_cons]
            omega
    · intro hno
      have hm : ∃ r1, s.handle api api2 m = some r1 := by
        cases m with
        | move src count before => exact absurd rfl (hno _ (by simp) src count before)
        | set_enabled value => exact ⟨_, rfl⟩
        | set_active_range fr => exact ⟨_, rfl⟩
        | set_available_range fr => exact ⟨_, rfl⟩
        | insert_index index ua item reacquired => exact ⟨_, rfl⟩
        | insert_uuid before_uuid ua item reacquired => exact ⟨_, rfl⟩
        | remove uuid =>
          simp only [StackActor.handle]
          split <;> exact ⟨_, rfl⟩
      obtain ⟨r1, h1⟩ := hm
      obtain ⟨rs, h2⟩ := (ih r1.1).2 (fun m' hm' => hno m' (by simp [hm']))
      exact ⟨(rs.1, r1.2 :: rs.2), by simp [StackActor.handle_all, h1, h2]⟩

/-- Instance of `handle_all_published`: five requests to four tracks, two of which
return a non-null delta. -/
theorem handle_all_published_witness :
    ∃ r, StackActor.handle_all demo_api demo_api2
        [.move "a" 0 Uuid.null, .set_enabled true, .set_enabled false, .remove "zz",
          .remove "b"] demo_four = some r ∧
      r.2.length = 5 ∧
      r.1.published = demo_four.published ++ returned_deltas r.2 ∧
      (returned_deltas r.2).length ≤ 5 ∧
      r.1.published.length = 2 :=
  ⟨_, rfl,
    (handle_all_published demo_api demo_api2
      [.move "a" 0 Uuid.null, .set_enabled true, .set_enabled false, .remove "zz",
        .remove "b"] demo_four).1 _ rfl |>.1,
    (handle_all_published demo_api demo_api2
      [.move "a" 0 Uuid.null, .set_enabled true, .set_enabled false, .remove "zz",
        .remove "b"] demo_four).1 _ rfl |>.2.1,
    (handle_all_published demo_api demo_api2
      [.move "a" 0 Uuid.null, .set_enabled true, .set_enabled false, .remove "zz",
        .remove "b"] demo_four).1 _ rfl |>.2.2,
    by rfl⟩

/-! ## Item events and the reconstruction flag -/

@[simp] theorem Item.uuid_set_actor_addr (it : Item) (a : Actor) :
    (it.set_actor_addr a).uuid = it.uuid := by
  cases it; rfl

@[simp] theorem Item.actor_set_actor_addr (it : Item) (a : Actor) :
    (it.set_actor_addr a).actor = a := by
  cases it; rfl

@[simp] theorem Item.item_type_set_actor_addr (it : Item) (a : Actor) :
    (it.set_actor_addr a).item_type = it.item_type := by
  cases it; rfl

theorem modify_eq_set_of_getElem {α : Type} (l : List α) (f : α → α) (i : Nat) (x : α)
    (h : l[i]? = some x) : l.modify f i = l.set i (f x) := by
  induction l generalizing i with
  | nil => simp at h
  | cons a l ih =>
    cases i with
    | zero =>
      simp at h
      simp [h]
    | succ i =>
      simp at h
      simp [ih i h]

theorem map_count_eq_zero (m : List (Uuid × Actor)) (k : Uuid) :
    map_count m k = 0 ↔ k ∉ m.map Prod.fst := by
  induction m with
  | nil => simp [map_count]
  | cons p m ih =>
    simp only [map_count, List.find?_cons] at ih ⊢
    by_cases h : p.1 = k
    · simp [h]
    · have h' : ¬ k = p.1 := fun e => h e.symm
      have hb : (p.1 == k) = false := by simpa using h
      simp only [hb, List.map_cons, List.mem_cons, h', false_or]
      exact ih

theorem map_at_map_assign_self (k : Uuid) (v : Actor) (m : List (Uuid × Actor)) :
    map_at (map_assign k v m) k = some v := by
  induction m with
  | nil => simp [map_assign, map_at]
  | cons p m ih =>
    obtain ⟨k', v'⟩ := p
    simp only [map_assign]
    by_cases h1 : Uuid.lt k k' = true
    · rw [if_pos h1]; simp [map_at]
    · rw [if_neg h1]
      by_cases h2 : k = k'
      · rw [if_pos h2]; simp [map_at]
      · rw [if_neg h2]
        have h3 : (k' == k) = false := by
          simpa using (fun e : k' = k => h2 e.symm)
        simp only [map_at, List.find?_cons, h3] at ih ⊢
        exact ih

theorem map_at_of_count (m : List (Uuid × Actor)) (k : Uuid) (h : map_count m k ≠ 0) :
    ∃ a, map_at m k = some a := by
  simp only [map_count] at h
  cases hf : m.find? (fun p => p.1 == k) with
  | none => simp [hf] at h
  | some p => exact ⟨p.2, by simp [map_at, hf]⟩

theorem deserialise_recreate (api : ItemApi) (t : StackActor) (value : Json) (k : Uuid)
    (hv : is_child_document value k = true) :
    t.deserialise api value false
      = .done ((({ t with spawned := t.spawned + 1 } : StackActor).add_item
          ⟨k, t.self + t.spawned + 1⟩), t.self + t.spawned + 1) := by
  obtain ⟨_, hitem, hty⟩ := (is_child_document_iff value k).mp hv
  cases hat : value.at3 "base" "container" "type" with
  | none => simp [Json.string_at, hat] at hty
  | some j =>
    have hcond : j.as_string = some "Track" ∨ j.as_string = some "Clip" ∨
        j.as_string = some "Gap" ∨ j.as_string = some "Stack" := by
      simpa [Json.string_at, hat] using hty
    simp only [StackActor.deserialise, hitem, hat, if_pos hcond]
    simp

theorem item_event_insert_recreates (api : ItemApi) (api2 : ItemApi2) (s : StackActor)
    (event action blind : Json) (u k : Uuid)
    (hact : event.get "action" = some action)
    (hins : api2.item_action action = .IT_INSERT)
    (hu : event.string_at2 "item" "uuid" = some u)
    (hchild : u ∈ s.child_uuids) (hown : u ∉ s.owned_uuids)
    (hblind : event.get "blind" = some blind)
    (hdoc : is_child_document blind k = true) :
    ∃ t child,
      s.item_event_callback api api2 event = .done t ∧
      s.children[find_uuid s.children u]? = some child ∧
      t.children = s.children.set (find_uuid s.children u)
        (child.set_actor_addr (s.self + s.spawned + 1)) ∧
      t.actors_ = map_assign u (s.self + s.spawned + 1)
        (map_assign k (s.self + s.spawned + 1) s.actors_) ∧
      t.spawned = s.spawned + 1 ∧
      t.published = s.published ++
        [(api2.make_actor_addr_update (child.set_actor_addr (s.self + s.spawned + 1)), true)] := by
  have hlt := find_uuid_lt_of_mem s.children u hchild
  have hget : s.children[find_uuid s.children u]?
      = some (s.children[find_uuid s.children u]) := List.getElem?_eq_getElem hlt
  have hcond : find_uuid s.children u ≠ s.children.length ∧ map_count s.actors_ u = 0 :=
    ⟨by omega, (map_count_eq_zero s.actors_ u).mpr hown⟩
  have hnull : blind.is_null = false := by
    cases blind with
    | null =>
      have := (is_child_document_iff Json.null k).mp hdoc
      simp [Json.string_at, Json.at3, Json.get] at this
    | bool b => rfl
    | num n => rfl
    | str x => rfl
    | arr xs => rfl
    | obj kvs => rfl
  have hdes := deserialise_recreate api s blind k hdoc
  have hmod : (s.children.modify (fun c => c.set_actor_addr (s.self + s.spawned + 1))
      (find_uuid s.children u))
      = s.children.set (find_uuid s.children u)
        ((s.children[find_uuid s.children u]).set_actor_addr (s.self + s.spawned + 1)) :=
    modify_eq_set_of_getElem _ _ _ _ hget
  have hget2 : (s.children.set (find_uuid s.children u)
      ((s.children[find_uuid s.children u]).set_actor_addr (s.self + s.spawned + 1)))[
        find_uuid s.children u]?
      = some ((s.children[find_uuid s.children u]).set_actor_addr (s.self + s.spawned + 1)) := by
    simp [hlt]
  have hch : ∀ s1 : StackActor, s1.base_.item = s.base_.item →
      (s1.with_item (s1.base_.item.set_child_actor_addr (find_uuid s.children u)
        (s.self + s.spawned + 1))).children
        = s.children.set (find_uuid s.children u)
          ((s.children[find_uuid s.children u]).set_actor_addr (s.self + s.spawned + 1)) := by
    intro s1 h1
    rw [StackActor.children_with_item, h1]
    simp only [Item.set_child_actor_addr, Item.children_with_children]
    exact hmod
  refine ⟨StackActor.send_event
      (StackActor.with_item
        ((({ s with spawned := s.spawned + 1 } : StackActor).add_item
          ⟨k, s.self + s.spawned + 1⟩).add_item ⟨u, s.self + s.spawned + 1⟩)
        (s.base_.item.set_child_actor_addr (find_uuid s.children u)
          (s.self + s.spawned + 1)))
      (api2.make_actor_addr_update
        ((s.children[find_uuid s.children u]).set_actor_addr (s.self + s.spawned + 1))) true,
    s.children[find_uuid s.children u], ?_, hget, ?_, rfl, rfl, rfl⟩
  · simp only [StackActor.item_event_callback, hact, hins, hu, if_pos hcond, hblind, hnull,
      Bool.not_false, if_true, hdes]
    have h2 := hch ((({ s with spawned := s.spawned + 1 } : StackActor).add_item
          ⟨k, s.self + s.spawned + 1⟩).add_item ⟨u, s.self + s.spawned + 1⟩) rfl
    rw [h2, hget2]
    rfl
  · exact hch ((({ s with spawned := s.spawned + 1 } : StackActor).add_item
          ⟨k, s.self + s.spawned + 1⟩).add_item ⟨u, s.self + s.spawned + 1⟩) rfl

theorem item_event_insert_ignored (api : ItemApi) (api2 : ItemApi2) (s : StackActor)
    (event action : Json) (u : Uuid)
    (hact : event.get "action" = some action)
    (hins : api2.item_action action = .IT_INSERT)
    (hu : event.string_at2 "item" "uuid" = some u)
    (h : u ∉ s.child_uuids ∨ u ∈ s.owned_uuids ∨ event.get "blind" = some .null) :
    s.item_event_callback api api2 event = .done s := by
  by_cases hcond : find_uuid s.children u ≠ s.children.length ∧ map_count s.actors_ u = 0
  · have hchild : u ∈ s.child_uuids := by
      by_contra hn
      exact hcond.1 ((find_uuid_eq_length s.children u).mpr hn)
    have hown : u ∉ s.owned_uuids := (map_count_eq_zero s.actors_ u).mp hcond.2
    rcases h with h | h | h
    · exact absurd hchild h
    · exact absurd h hown
    · simp only [StackActor.item_event_callback, hact, hins, hu, if_pos hcond, h,
        Json.is_null, Bool.not_true, Bool.false_eq_true, if_false]
  · simp only [StackActor.item_event_callback, hact, hins, hu, if_neg hcond]

theorem map_at_none_of_count (m : List (Uuid × Actor)) (k : Uuid) (h : map_count m k = 0) :
    map_at m k = none := by
  simp only [map_count] at h
  cases hf : m.find? (fun p => p.1 == k) with
  | none => simp [map_at, hf]
  | some p => simp [hf] at h

theorem item_event_remove (api : ItemApi) (api2 : ItemApi2) (s : StackActor)
    (event action : Json) (u : Uuid)
    (hact : event.get "action" = some action)
    (hrem : api2.item_action action = .IT_REMOVE)
    (hu : (event.get "item_uuid").bind Json.as_string = some u) :
    ∃ t, s.item_event_callback api api2 event = .done t ∧
      t.actors_ = map_erase u s.actors_ ∧
      t.children = s.children ∧
      t.published = s.published ∧
      (∀ a, map_at s.actors_ u = some a → t.exits = s.exits ++ [a]) ∧
      (u ∉ s.owned_uuids → t = s) := by
  by_cases hc : map_count s.actors_ u ≠ 0
  · obtain ⟨a, ha⟩ := map_at_of_count s.actors_ u hc
    have hown : ¬ u ∉ s.owned_uuids := fun hn => hc ((map_count_eq_zero s.actors_ u).mpr hn)
    refine ⟨{ (s.demonitor a).send_exit a with
        actors_ := map_erase u ((s.demonitor a).send_exit a).actors_ }, ?_, rfl, rfl, rfl, ?_,
      fun hn => absurd hn hown⟩
    · simp only [StackActor.item_event_callback, hact, hrem, hu, if_pos hc, ha]
    · intro b hb
      rw [ha] at hb
      cases hb
      rfl
  · have hz : map_count s.actors_ u = 0 := by omega
    have hown : u ∉ s.owned_uuids := (map_count_eq_zero s.actors_ u).mp hz
    refine ⟨s, ?_, (map_erase_of_not_mem u s.actors_ hown).symm, rfl, rfl, ?_, fun _ => rfl⟩
    · simp only [StackActor.item_event_callback, hact, hrem, hu, if_neg hc]
    · intro b hb
      rw [map_at_none_of_count s.actors_ u hz] at hb
      cases hb

/-- C18 as stated fails: the flag is used the other way round.  With the placeholder
child `a` (disabled, no actor) in the children, the constructor's loop run on the
document of `a` overwrites the placeholder by the rebuilt Item (enabled, routed to the
new actor 2), whereas the flag switched off would leave it alone; the recreation from an
insert event keeps the placeholder (still disabled) and only routes it to the new
actor. -/
theorem flag_on_at_load_off_on_recreate :
    (demo_api.pitem "Track" (demo_doc "a" .IT_TRACK) 2).enabled = true ∧
    demo_placeholder.children.map Item.enabled = [false] ∧
    (StackActor.deserialise_all demo_api [demo_doc "a" .IT_TRACK] demo_placeholder).map
      (fun t => (t.children.map Item.enabled, t.child_actors)) = some ([true], [2]) ∧
    (demo_placeholder.deserialise demo_api (demo_doc "a" .IT_TRACK) false).toOption.map
      (fun r => (r.1.children.map Item.enabled, r.1.child_actors)) = some ([false], [0]) ∧
    (demo_placeholder.item_event_callback demo_api demo_api2
      (demo_event "insert" "a" (demo_doc "a" .IT_TRACK))).toOption.map
      (fun t => (t.children.map Item.enabled, t.child_actors)) = some ([false], [2]) := by
  refine ⟨by decide, by decide, by decide, by decide, by decide⟩

/-- C18 amended (reconstruction flag usage): when a stack is built from a document, the
constructor's loop deserialises an entry under "actors" in replace mode: the child Item
with the entry's identity is overwritten by the Item the spawned child reports, at the
same position and without changing the child count.  When a destroyed child is
recreated from an insert event, its document is deserialised with the flag off: the
child Item with that identity stays in place and only its actor reference is set to the
new actor, again without changing the child count. -/
theorem reconstruction_flag_usage (api : ItemApi) (api2 : ItemApi2) (s : StackActor)
    (value : Json) (k : Uuid)
    (hdoc : is_child_document value k = true) (hk : k ∈ s.child_uuids) :
    (∃ ty t1,
      value.string_at "base" "container" "type" = some ty ∧
      StackActor.deserialise_all api [value] s = some t1 ∧
      t1.children = s.children.set (find_uuid s.children k)
        (api.pitem ty value (s.self + s.spawned + 1)) ∧
      t1.children.length = s.children.length) ∧
    (∀ event action,
      event.get "action" = some action → api2.item_action action = .IT_INSERT →
      event.string_at2 "item" "uuid" = some k → event.get "blind" = some value →
      k ∉ s.owned_uuids →
      ∃ t child,
        s.item_event_callback api api2 event = .done t ∧
        s.children[find_uuid s.children k]? = some child ∧
        t.children = s.children.set (find_uuid s.children k)
          (child.set_actor_addr (s.self + s.spawned + 1)) ∧
        t.children.length = s.children.length) := by
  constructor
  · obtain ⟨ty, t1, hty, hdes, hch, _⟩ := deserialise_child api s value k hdoc hk
    refine ⟨ty, t1, hty, ?_, hch, ?_⟩
    · simp [StackActor.deserialise_all, hdes]
    · rw [hch]; simp
  · intro event action hact hins hu hblind hown
    obtain ⟨t, child, hcb, hget, hch, _⟩ :=
      item_event_insert_recreates api api2 s event action value k k hact hins hu hk hown
        hblind hdoc
    exact ⟨t, child, hcb, hget, hch, by rw [hch]; simp⟩

/-- Instance of `reconstruction_flag_usage`: the placeholder track `a` and its
document. -/
theorem reconstruction_flag_usage_witness :
    is_child_document (demo_doc "a" .IT_TRACK) "a" = true ∧
    "a" ∈ demo_placeholder.child_uuids ∧
    ∃ ty t1,
      (demo_doc "a" .IT_TRACK).string_at "base" "container" "type" = some ty ∧
      StackActor.deserialise_all demo_api [demo_doc "a" .IT_TRACK] demo_placeholder
        = some t1 ∧
      t1.children = demo_placeholder.children.set (find_uuid demo_placeholder.children "a")
        (demo_api.pitem ty (demo_doc "a" .IT_TRACK)
          (demo_placeholder.self + demo_placeholder.spawned + 1)) ∧
      t1.children.length = demo_placeholder.children.length :=
  ⟨by decide, by decide,
    (reconstruction_flag_usage demo_api demo_api2 demo_placeholder (demo_doc "a" .IT_TRACK)
      "a" (by decide) (by decide)).1⟩

/-- C19 as stated fails: an insert event for the placeholder child `a` (among the
children, not owned) whose blind document is not null but of the unknown kind
"Timeline" spawns no actor, yet the ownership map gets an entry that maps `a` to the
invalid handle 0 and one event is published. -/
theorem unknown_kind_changes_ownership :
    "a" ∈ demo_placeholder.child_uuids ∧ "a" ∉ demo_placeholder.owned_uuids ∧
    (demo_timeline_doc "a").is_null = false ∧
    is_child_document (demo_timeline_doc "a") "a" = false ∧
    demo_placeholder.actors_ = [] ∧ demo_placeholder.published.length = 0 ∧
    (demo_placeholder.item_event_callback demo_api demo_api2
      (demo_event "insert" "a" (demo_timeline_doc "a"))).toOption.map
      (fun t => (t.actors_, t.published.length, t.spawned, t.child_uuids))
      = some ([("a", 0)], 1, 0, ["a"]) := by
  refine ⟨by decide, by decide, by decide, by decide, by decide, by decide, by decide⟩

/-- C19 amended (item-event callback): for an insert event for identity `u`: if `u` is
among the children, has no entry in the ownership map and the event carries a blind
document of a known kind, then afterwards the ownership map maps `u` to the newly
spawned actor, the child Item for `u` is routed to that actor, the children's identities
and order are unchanged and exactly one event, the hidden address update of that child,
is published; if `u` is not among the children, or has an entry, or the blind document
is null, the state is unchanged (nothing is said for a blind document that is neither
null nor of a known kind).  For a remove event for identity `u` the entry for `u`, if
any, is removed from the ownership map and its actor is sent an exit; every other entry,
the children and the published events are unchanged. -/
theorem item_event_callback_ownership (api : ItemApi) (api2 : ItemApi2) (s : StackActor)
    (event action : Json) (u : Uuid)
    (hact : event.get "action" = some action) :
    (api2.item_action action = .IT_INSERT → event.string_at2 "item" "uuid" = some u →
      (∀ blind k, u ∈ s.child_uuids → u ∉ s.owned_uuids →
        event.get "blind" = some blind → is_child_document blind k = true →
        ∃ t child,
          s.item_event_callback api api2 event = .done t ∧
          t.spawned = s.spawned + 1 ∧
          map_at t.actors_ u = some (s.self + s.spawned + 1) ∧
          s.children[find_uuid s.children u]? = some child ∧
          t.children = s.children.set (find_uuid s.children u)
            (child.set_actor_addr (s.self + s.spawned + 1)) ∧
          (t.children[find_uuid s.children u]?).map Item.actor
            = some (s.self + s.spawned + 1) ∧
          t.child_uuids = s.child_uuids ∧
          t.published = s.published ++
            [(api2.make_actor_addr_update
                (child.set_actor_addr (s.self + s.spawned + 1)), true)]) ∧
      ((u ∉ s.child_uuids ∨ u ∈ s.owned_uuids ∨ event.get "blind" = some .null) →
        s.item_event_callback api api2 event = .done s)) ∧
    (api2.item_action action = .IT_REMOVE →
      (event.get "item_uuid").bind Json.as_string = some u →
      ∃ t, s.item_event_callback api api2 event = .done t ∧
        t.actors_ = map_erase u s.actors_ ∧
        u ∉ t.owned_uuids ∧
        (∀ p, p.1 ≠ u → (p ∈ t.actors_ ↔ p ∈ s.actors_)) ∧
        t.children = s.children ∧
        t.published = s.published ∧
        (∀ a, map_at s.actors_ u = some a → t.exits = s.exits ++ [a]) ∧
        (u ∉ s.owned_uuids → t = s)) := by
  refine ⟨fun hins hu => ⟨?_, item_event_insert_ignored api api2 s event action u hact hins hu⟩,
    ?_⟩
  · intro blind k hchild hown hblind hdoc
    obtain ⟨t, child, hcb, hget, hch, hact', hsp, hpub⟩ :=
      item_event_insert_recreates api api2 s event action blind u k hact hins hu hchild hown
        hblind hdoc
    have hlt := find_uuid_lt_of_mem s.children u hchild
    refine ⟨t, child, hcb, hsp, ?_, hget, hch, ?_, ?_, hpub⟩
    · rw [hact']; exact map_at_map_assign_self _ _ _
    · rw [hch]; simp [hlt]
    · simp only [StackActor.child_uuids, hch, List.map_set, Item.uuid_set_actor_addr]
      apply set_eq_self_of_getElem
      rw [List.getElem?_map, hget, Option.map_some']
  · intro hrem hu
    obtain ⟨t, hcb, hact', hch, hpub, hex, hsame⟩ :=
      item_event_remove api api2 s event action u hact hrem hu
    refine ⟨t, hcb, hact', ?_, ?_, hch, hpub, hex, hsame⟩
    · simp only [StackActor.owned_uuids, hact']
      exact not_mem_map_erase u s.actors_
    · intro p hp
      rw [hact']
      simp only [map_erase, List.mem_filter, Bool.not_eq_eq_eq_not, Bool.not_true,
        beq_eq_false_iff_ne, ne_eq, hp, not_false_eq_true, and_true]

/-- Instance of `item_event_callback_ownership`: the placeholder track `a` is recreated
from an insert event, and the owned track `b` is dropped by a remove event. -/
theorem item_event_callback_ownership_witness :
    (∃ t child,
      demo_placeholder.item_event_callback demo_api demo_api2
        (demo_event "insert" "a" (demo_doc "a" .IT_TRACK)) = .done t ∧
      t.spawned = demo_placeholder.spawned + 1 ∧
      map_at t.actors_ "a" = some (demo_placeholder.self + demo_placeholder.spawned + 1) ∧
      demo_placeholder.children[find_uuid demo_placeholder.children "a"]? = some child ∧
      t.children = demo_placeholder.children.set (find_uuid demo_placeholder.children "a")
        (child.set_actor_addr (demo_placeholder.self + demo_placeholder.spawned + 1)) ∧
      (t.children[find_uuid demo_placeholder.children "a"]?).map Item.actor
        = some (demo_placeholder.self + demo_placeholder.spawned + 1) ∧
      t.child_uuids = demo_placeholder.child_uuids ∧
      t.published = demo_placeholder.published ++
        [(demo_api2.make_actor_addr_update
            (child.set_actor_addr (demo_placeholder.self + demo_placeholder.spawned + 1)),
          true)]) ∧
    (∃ t, demo_four.item_event_callback demo_api demo_api2 (demo_event "remove" "b" .null)
        = .done t ∧
      t.actors_ = map_erase "b" demo_four.actors_ ∧
      t.owned_uuids = ["a", "c", "d"] ∧ t.exits = [12]) :=
  ⟨((item_event_callback_ownership demo_api demo_api2 demo_placeholder
        (demo_event "insert" "a" (demo_doc "a" .IT_TRACK)) (.str "insert") "a" (by rfl)).1
      (by decide) (by decide)).1 (demo_doc "a" .IT_TRACK) "a" (by decide) (by decide) (by rfl)
      (by decide),
    by
      obtain ⟨t, h1, h2, _, _, _, _, h7, _⟩ :=
        (item_event_callback_ownership demo_api demo_api2 demo_four
          (demo_event "remove" "b" .null) (.str "remove") "b" (by rfl)).2 (by decide) (by rfl)
      refine ⟨t, h1, h2, ?_, ?_⟩
      · simp only [StackActor.owned_uuids, h2]
        decide
      · rw [h7 12 (by decide)]
        rfl⟩

/-! ## The colour pipeline lookup -/

theorem plugin_uuid_of_no_detail (ds : List PluginDetail) (pipe_name : String)
    (h : ∀ d ∈ ds, d.name_ ≠ pipe_name) : plugin_uuid ds pipe_name = Uuid.null := by
  induction ds with
  | nil => rfl
  | cons d rest ih =>
    have h1 : d.name_ ≠ pipe_name := h d (List.mem_cons_self _ _)
    have h2 : ∀ e ∈ rest, e.name_ ≠ pipe_name := fun e he => h e (List.mem_cons_of_mem _ he)
    simp [plugin_uuid, h1, ih h2]

/-- With the builtin name as default a lookup does not call itself: it resolves the
promise once, after at most one spawn request, and keeps the default. -/
theorem make_or_get_colour_pipeline_builtin_default (builtin : String)
    (reply : Nat → Uuid → Except error Actor) (s : GlobalColourPipelineActor)
    (pipe_name : String) (jsn : JsonStore) (hd : s.default_plugin_name_ = builtin) :
    (∃ r, (s.make_or_get_colour_pipeline builtin reply pipe_name jsn).delivered
        = s.delivered ++ [r]) ∧
    (∃ reqs, (s.make_or_get_colour_pipeline builtin reply pipe_name jsn).spawn_requests
        = s.spawn_requests ++ reqs ∧ reqs.length ≤ 1) ∧
    (s.make_or_get_colour_pipeline builtin reply pipe_name jsn).default_plugin_name_
      = builtin := by
  rw [GlobalColourPipelineActor.make_or_get_colour_pipeline]
  cases hm : map_at s.colour_pipeline_actors_ pipe_name with
  | some a =>
    exact ⟨⟨_, rfl⟩, ⟨[], by simp [GlobalColourPipelineActor.deliver], by simp⟩, hd⟩
  | none =>
    by_cases hn : (plugin_uuid s.colour_pipe_plugin_details_ pipe_name).is_null = true
    · simp only [hn, if_true]
      exact ⟨⟨_, rfl⟩, ⟨[], by simp [GlobalColourPipelineActor.deliver], by simp⟩, hd⟩
    · simp only [hn]
      cases hr : reply s.spawn_requests.length
          (plugin_uuid s.colour_pipe_plugin_details_ pipe_name) with
      | ok a =>
        exact ⟨⟨_, rfl⟩, ⟨[_], rfl, by simp⟩, hd⟩
      | error err =>
        have hno : ¬ (pipe_name = s.default_plugin_name_ ∧ s.default_plugin_name_ ≠ builtin) :=
          fun h => h.2 hd
        simp only [dif_neg hno]
        exact ⟨⟨_, rfl⟩, ⟨[_], rfl, by simp⟩, hd⟩

/-- C21: the colour pipeline lookup `make_or_get_colour_pipeline` is total and, for every
name, plugin list and answers of the plugin manager, resolves the promise exactly once
after at most two spawn requests.  A name in the loaded-pipelines map delivers the
cached actor and sends no spawn request; a name that is not loaded and has no matching
plugin detail delivers the error for an invalid name and sends no spawn request; a
successful spawn links, caches and delivers the new actor; a failed spawn is retried
exactly when the name is the current default and the default is not the builtin name,
and then the lookup is the lookup of the builtin name in the state whose default is the
builtin name, which ends with the builtin default after at most one more spawn request;
every other failed spawn delivers the error of that one request. -/
theorem colour_pipeline_lookup_terminates (builtin : String)
    (reply : Nat → Uuid → Except error Actor) (s : GlobalColourPipelineActor)
    (pipe_name : String) (jsn : JsonStore) :
    ((∃ r, (s.make_or_get_colour_pipeline builtin reply pipe_name jsn).delivered
        = s.delivered ++ [r]) ∧
     (∃ reqs, (s.make_or_get_colour_pipeline builtin reply pipe_name jsn).spawn_requests
        = s.spawn_requests ++ reqs ∧ reqs.length ≤ 2)) ∧
    (∀ a, map_at s.colour_pipeline_actors_ pipe_name = some a →
      s.make_or_get_colour_pipeline builtin reply pipe_name jsn = s.deliver (.ok a) ∧
      (s.make_or_get_colour_pipeline builtin reply pipe_name jsn).spawn_requests
        = s.spawn_requests) ∧
    (map_at s.colour_pipeline_actors_ pipe_name = none →
      (∀ d ∈ s.colour_pipe_plugin_details_, d.name_ ≠ pipe_name) →
      s.make_or_get_colour_pipeline builtin reply pipe_name jsn
        = s.deliver (.error "create_colour_pipeline failed, invalid colour pipeline name.") ∧
      (s.make_or_get_colour_pipeline builtin reply pipe_name jsn).spawn_requests
        = s.spawn_requests) ∧
    (map_at s.colour_pipeline_actors_ pipe_name = none →
      (plugin_uuid s.colour_pipe_plugin_details_ pipe_name).is_null = false →
      (∀ a, reply s.spawn_requests.length
            (plugin_uuid s.colour_pipe_plugin_details_ pipe_name) = .ok a →
        s.make_or_get_colour_pipeline builtin reply pipe_name jsn
          = ({ s.request_spawn (plugin_uuid s.colour_pipe_plugin_details_ pipe_name) jsn with
                linked := s.linked ++ [a],
                colour_pipeline_actors_ :=
                  map_assign pipe_name a s.colour_pipeline_actors_ }).deliver (.ok a)) ∧
      (∀ err, reply s.spawn_requests.length
            (plugin_uuid s.colour_pipe_plugin_details_ pipe_name) = .error err →
        (pipe_name = s.default_plugin_name_ ∧ s.default_plugin_name_ ≠ builtin →
          s.make_or_get_colour_pipeline builtin reply pipe_name jsn
            = GlobalColourPipelineActor.make_or_get_colour_pipeline builtin reply
                { s.request_spawn (plugin_uuid s.colour_pipe_plugin_details_ pipe_name) jsn
                  with default_plugin_name_ := builtin } builtin jsn ∧
          (s.make_or_get_colour_pipeline builtin reply pipe_name jsn).default_plugin_name_
            = builtin ∧
          ∃ reqs, (s.make_or_get_colour_pipeline builtin reply pipe_name jsn).spawn_requests
              = s.spawn_requests
                ++ (plugin_uuid s.colour_pipe_plugin_details_ pipe_name, jsn) :: reqs ∧
            reqs.length ≤ 1) ∧
        (¬ (pipe_name = s.default_plugin_name_ ∧ s.default_plugin_name_ ≠ builtin) →
          s.make_or_get_colour_pipeline builtin reply pipe_name jsn
            = (s.request_spawn (plugin_uuid s.colour_pipe_plugin_details_ pipe_name)
                jsn).deliver (.error err)))) := by
  -- the fallback call, which runs with the builtin default
  have hretry := make_or_get_colour_pipeline_builtin_default builtin reply
    { s.request_spawn (plugin_uuid s.colour_pipe_plugin_details_ pipe_name) jsn
      with default_plugin_name_ := builtin } builtin jsn rfl
  -- the four ways through the body
  have hcached : ∀ a, map_at s.colour_pipeline_actors_ pipe_name = some a →
      s.make_or_get_colour_pipeline builtin reply pipe_name jsn = s.deliver (.ok a) := by
    intro a hm
    rw [GlobalColourPipelineActor.make_or_get_colour_pipeline]
    simp only [hm]
  have hnull : map_at s.colour_pipeline_actors_ pipe_name = none →
      (plugin_uuid s.colour_pipe_plugin_details_ pipe_name).is_null = true →
      s.make_or_get_colour_pipeline builtin reply pipe_name jsn
        = s.deliver
            (.error "create_colour_pipeline failed, invalid colour pipeline name.") := by
    intro hm hn
    rw [GlobalColourPipelineActor.make_or_get_colour_pipeline]
    simp only [hm, hn, if_true]
  have hok : ∀ a, map_at s.colour_pipeline_actors_ pipe_name = none →
      (plugin_uuid s.colour_pipe_plugin_details_ pipe_name).is_null = false →
      reply s.spawn_requests.length
          (plugin_uuid s.colour_pipe_plugin_details_ pipe_name) = .ok a →
      s.make_or_get_colour_pipeline builtin reply pipe_name jsn
        = ({ s.request_spawn (plugin_uuid s.colour_pipe_plugin_details_ pipe_name) jsn with
              linked := s.linked ++ [a],
              colour_pipeline_actors_ :=
                map_assign pipe_name a s.colour_pipeline_actors_ }).deliver (.ok a) := by
    intro a hm hn hr
    rw [GlobalColourPipelineActor.make_or_get_colour_pipeline]
    simp [hm, hn, hr]
  have hfall : ∀ err, map_at s.colour_pipeline_actors_ pipe_name = none →
      (plugin_uuid s.colour_pipe_plugin_details_ pipe_name).is_null = false →
      reply s.spawn_requests.length
          (plugin_uuid s.colour_pipe_plugin_details_ pipe_name) = .error err →
      (pipe_name = s.default_plugin_name_ ∧ s.default_plugin_name_ ≠ builtin) →
      s.make_or_get_colour_pipeline builtin reply pipe_name jsn
        = GlobalColourPipelineActor.make_or_get_colour_pipeline builtin reply
            { s.request_spawn (plugin_uuid s.colour_pipe_plugin_details_ pipe_name) jsn
              with default_plugin_name_ := builtin } builtin jsn := by
    intro err hm hn hr hd
    rw [GlobalColourPipelineActor.make_or_get_colour_pipeline]
    simp only [hm, hn, hr, dif_pos hd]
    rfl
  have herr : ∀ err, map_at s.colour_pipeline_actors_ pipe_name = none →
      (plugin_uuid s.colour_pipe_plugin_details_ pipe_name).is_null = false →
      reply s.spawn_requests.length
          (plugin_uuid s.colour_pipe_plugin_details_ pipe_name) = .error err →
      ¬ (pipe_name = s.default_plugin_name_ ∧ s.default_plugin_name_ ≠ builtin) →
      s.make_or_get_colour_pipeline builtin reply pipe_name jsn
        = (s.request_spawn (plugin_uuid s.colour_pipe_plugin_details_ pipe_name)
            jsn).deliver (.error err) := by
    intro err hm hn hr hd
    rw [GlobalColourPipelineActor.make_or_get_colour_pipeline]
    simp only [hm, hn, hr, dif_neg hd]
    rfl
  refine ⟨?_, ?_, ?_, ?_⟩
  · cases hm : map_at s.colour_pipeline_actors_ pipe_name with
    | some a =>
      rw [hcached a hm]
      exact ⟨⟨_, rfl⟩, [], by simp [GlobalColourPipelineActor.deliver], by simp⟩
    | none =>
      cases hn : (plugin_uuid s.colour_pipe_plugin_details_ pipe_name).is_null with
      | true =>
        rw [hnull hm hn]
        exact ⟨⟨_, rfl⟩, [], by simp [GlobalColourPipelineActor.deliver], by simp⟩
      | false =>
        cases hr : reply s.spawn_requests.length
            (plugin_uuid s.colour_pipe_plugin_details_ pipe_name) with
        | ok a =>
          rw [hok a hm hn hr]
          exact ⟨⟨_, rfl⟩, [_], rfl, by simp⟩
        | error err =>
          by_cases hd : pipe_name = s.default_plugin_name_ ∧ s.default_plugin_name_ ≠ builtin
          · rw [hfall err hm hn hr hd]
            obtain ⟨⟨r, hr1⟩, ⟨reqs, hq1, hq2⟩, _⟩ := hretry
            refine ⟨⟨r, hr1⟩, (plugin_uuid s.colour_pipe_plugin_details_ pipe_name, jsn) :: reqs,
              ?_, ?_⟩
            · rw [hq1]
              simp [GlobalColourPipelineActor.request_spawn]
            · simp only [List.length_cons]
              omega
          · rw [herr err hm hn hr hd]
            exact ⟨⟨_, rfl⟩, [_], rfl, by simp⟩
  · intro a hm
    rw [hcached a hm]
    exact ⟨rfl, rfl⟩
  · intro hm hno
    have hn : (plugin_uuid s.colour_pipe_plugin_details_ pipe_name).is_null = true := by
      rw [plugin_uuid_of_no_detail _ _ hno]
      rfl
    rw [hnull hm hn]
    exact ⟨rfl, rfl⟩
  · intro hm hn
    refine ⟨fun a hr => hok a hm hn hr, fun err hr => ⟨fun hd => ?_, fun hd => herr err hm hn hr hd⟩⟩
    rw [hfall err hm hn hr hd]
    obtain ⟨_, ⟨reqs, hq1, hq2⟩, hdef⟩ := hretry
    refine ⟨rfl, hdef, reqs, ?_, hq2⟩
    rw [hq1]
    simp [GlobalColourPipelineActor.request_spawn]

/-- Instance of `colour_pipeline_lookup_terminates`: the default `Fancy` fails to spawn,
the lookup falls back to the builtin `OCIO`, whose spawn gives actor 7; two spawn
requests are sent, one value is delivered and the default is the builtin name. -/
theorem colour_pipeline_lookup_terminates_witness :
    (demo_colour.make_or_get_colour_pipeline "OCIO" demo_spawn "Fancy" Json.null).delivered
      = [.ok 7] ∧
    (demo_colour.make_or_get_colour_pipeline "OCIO" demo_spawn "Fancy"
      Json.null).spawn_requests.map Prod.fst = ["u2", "u1"] ∧
    (demo_colour.make_or_get_colour_pipeline "OCIO" demo_spawn "Fancy"
      Json.null).default_plugin_name_ = "OCIO" ∧
    (demo_colour.make_or_get_colour_pipeline "OCIO" demo_spawn "Fancy"
      Json.null).colour_pipeline_actors_ = [("OCIO", 7)] ∧
    (demo_colour.make_or_get_colour_pipeline "OCIO" demo_spawn "Fancy" Json.null).linked
      = [7] := by
  have h1 := ((((colour_pipeline_lookup_terminates "OCIO" demo_spawn demo_colour "Fancy"
    Json.null).2.2.2 (by decide) (by decide)).2 "spawn failed" rfl).1
    ⟨by decide, by decide⟩).1
  have h2 := ((colour_pipeline_lookup_terminates "OCIO" demo_spawn
    { demo_colour.request_spawn
        (plugin_uuid demo_colour.colour_pipe_plugin_details_ "Fancy") Json.null
      with default_plugin_name_ := "OCIO" } "OCIO"
    Json.null).2.2.2 (by decide) (by decide)).1 7 rfl
  rw [h1, h2]
  exact ⟨rfl, by decide, by decide, by decide, by decide⟩

end xstudio
